import Mathlib

/-!
Verification of the C#-to-visual-scripting converter
(`cs_to_visual_scripting_converter.py`).

The development shallowly embeds the converter: Python strings become
`List Char`, the `re` regular-expression scans become a small backtracking
matcher over an explicit pattern syntax (`Re`), the generator's mutable
state (guid supply, layout cursor) becomes an explicit `GenState`, and the
only fallible operation (`int(...)` on a captured bound) makes translation
return `Option`.  Randomness (`uuid.uuid4`) and Python's string `hash` are
modelled as parameters: a guid stream `g : Nat → String` and a hash
function `h : String → Nat` bundled in `Ids`.
-/

namespace CsConv

/-! ## Python-style character and string primitives

We model the ASCII fragment of Python's semantics that the converter's
inputs exercise, with one deliberate exception: Python's `str.isdigit`
accepts Unicode characters of Numeric_Type=Digit (for example the
superscript digits U+00B9, U+00B2, U+00B3) that `int(...)` rejects with a
`ValueError`.  We carry the three superscript digits in the character
universe to model that discrepancy faithfully.
-/

/-- Python whitespace (the ASCII fragment of `\s` and of `str.strip`). -/
def isWs (c : Char) : Bool :=
  c == ' ' || c == '\t' || c == '\n' || c == '\r' || c == '\x0b' || c == '\x0c'

/-- Python `\w` (ASCII fragment): letters, digits, underscore. -/
def isWordChar (c : Char) : Bool := c.isAlphanum || c == '_'

/-- Python `str.isdigit` on a single character: ASCII digits plus the
superscript digits, which CPython classifies as digits although `int`
rejects them. -/
def pyCharIsDigit (c : Char) : Bool :=
  c.isDigit || c == '¹' || c == '²' || c == '³'

/-- Python `str.isdigit`: nonempty and all characters digits. -/
def pyStrIsDigit (s : List Char) : Bool := !s.isEmpty && s.all pyCharIsDigit

/-- Python `str.strip()` (whitespace from both ends). -/
def pyStrip (s : List Char) : List Char :=
  ((s.dropWhile isWs).reverse.dropWhile isWs).reverse

/-- Python substring membership `needle in hay`. -/
def containsSub (needle : List Char) : List Char → Bool
  | [] => needle.isEmpty
  | c :: rest => needle.isPrefixOf (c :: rest) || containsSub needle rest

def splitOnCharAux (sep : Char) : List Char → List Char → List (List Char)
  | [], acc => [acc.reverse]
  | c :: rest, acc =>
    if c == sep then acc.reverse :: splitOnCharAux sep rest []
    else splitOnCharAux sep rest (c :: acc)

/-- Python `s.split(sep)` for a single-character separator. -/
def splitOnChar (sep : Char) (s : List Char) : List (List Char) :=
  splitOnCharAux sep s []

def digitsToNat (s : List Char) : Nat :=
  s.foldl (fun a c => a * 10 + (c.toNat - '0'.toNat)) 0

/-- CPython `int(s)` on already-stripped text: optional sign followed by
ASCII decimal digits.  Superscript digits are *not* accepted (CPython
raises `ValueError` on them even though `str.isdigit` returns `True`);
failure is `none`. -/
def pyIntParse? (s : List Char) : Option Int :=
  match s with
  | '-' :: rest =>
    if !rest.isEmpty && rest.all Char.isDigit then some (-(digitsToNat rest : Int)) else none
  | '+' :: rest =>
    if !rest.isEmpty && rest.all Char.isDigit then some (digitsToNat rest : Int) else none
  | _ =>
    if !s.isEmpty && s.all Char.isDigit then some (digitsToNat s : Int) else none

def spanDigits : List Char → Nat × List Char
  | [] => (0, [])
  | c :: rest =>
    if c.isDigit then
      let (n, r) := spanDigits rest
      (n + 1, r)
    else (0, c :: rest)

def floatExpOk : List Char → Bool
  | [] => true
  | e :: rest =>
    if e == 'e' || e == 'E' then
      let rest2 := match rest with
        | c :: r => if c == '+' || c == '-' then r else rest
        | [] => rest
      let (d, r) := spanDigits rest2
      decide (0 < d) && r.isEmpty
    else false

/-- Does CPython `float(s)` succeed on already-stripped text `s`?  We model
the common fragment: optional sign, a decimal mantissa with at most one
point and at least one digit, and an optional exponent. -/
def pyFloatAccepts (s : List Char) : Bool :=
  let s1 := match s with
    | c :: r => if c == '+' || c == '-' then r else s
    | [] => s
  let (d1, r1) := spanDigits s1
  match r1 with
  | '.' :: r2 =>
    let (d2, r3) := spanDigits r2
    decide (0 < d1 + d2) && floatExpOk r3
  | _ => decide (0 < d1) && floatExpOk r1

/-! ## A small backtracking regular-expression engine

`Re` is the pattern syntax needed by the converter's patterns: literals,
single-character predicates, sequencing, ordered alternation, greedy
star/option, numbered capturing groups and back-references.  `reM` is a
continuation-passing backtracking matcher with the same preference order as
CPython `re` (leftmost alternative first, greedy quantifiers longest
first); `findIter` mirrors `re.finditer` (leftmost, non-overlapping). -/

inductive Re where
  | eps : Re
  | tok : (Char → Bool) → Re
  | lit : List Char → Re
  | seq : Re → Re → Re
  | alt : Re → Re → Re
  | star : Re → Re
  | opt : Re → Re
  | grp : Nat → Re → Re
  | bref : Nat → Re

/-- Greedy `+` as `a · a*`. -/
def rplus (a : Re) : Re := .seq a (.star a)

def rseq (l : List Re) : Re := l.foldr .seq .eps

def rlit (s : String) : Re := .lit s.data

abbrev Caps := List (Nat × List Char)

def capGet (caps : Caps) (i : Nat) : Option (List Char) :=
  (caps.find? (fun p => p.1 == i)).map (·.2)

def reM : Nat → Re → List Char → Caps →
    (List Char → Caps → Option (List Char × Caps)) → Option (List Char × Caps)
  | 0, _, _, _, _ => none
  | fuel + 1, re, s, caps, k =>
    match re with
    | .eps => k s caps
    | .tok p =>
      match s with
      | [] => none
      | c :: rest => if p c then k rest caps else none
    | .lit cs => if cs.isPrefixOf s then k (s.drop cs.length) caps else none
    | .seq a b => reM fuel a s caps (fun s2 caps2 => reM fuel b s2 caps2 k)
    | .alt a b => reM fuel a s caps k <|> reM fuel b s caps k
    | .star a =>
      (reM fuel a s caps (fun s2 caps2 =>
        if s2.length < s.length then reM fuel (.star a) s2 caps2 k else none))
      <|> k s caps
    | .opt a => reM fuel a s caps k <|> k s caps
    | .grp i a =>
      reM fuel a s caps (fun s2 caps2 => k s2 ((i, s.take (s.length - s2.length)) :: caps2))
    | .bref i =>
      match capGet caps i with
      | some cs => if cs.isPrefixOf s then k (s.drop cs.length) caps else none
      | none => none

structure RMatch where
  ms : Nat
  me : Nat
  caps : Caps
deriving DecidableEq, Repr

/-- Attempt an anchored match of `re` at position `pos` of `s`; on success
return the end position and the captures (the leftmost-greedy solution, as
in CPython). -/
def matchAt (re : Re) (s : List Char) (pos : Nat) : Option (Nat × Caps) :=
  let rest := s.drop pos
  (reM (20 * rest.length + 200) re rest [] (fun r c => some (r, c))).map
    (fun rc => (s.length - rc.1.length, rc.2))

def findIterAux (re : Re) (s : List Char) : Nat → Nat → List RMatch
  | 0, _ => []
  | fuel + 1, pos =>
    if pos > s.length then []
    else
      match matchAt re s pos with
      | some (e, caps) =>
        { ms := pos, me := e, caps := caps } ::
          findIterAux re s fuel (if e > pos then e else pos + 1)
      | none => findIterAux re s fuel (pos + 1)

/-- `re.finditer`: all leftmost non-overlapping matches, in order. -/
def findIter (re : Re) (s : List Char) : List RMatch :=
  findIterAux re s (s.length + 2) 0

/-- Group `i` of a match, defaulting to the empty string (the converter only
reads groups that its guards ensure are set, except where noted). -/
def capD (m : RMatch) (i : Nat) : List Char :=
  (capGet m.caps i).getD []

/-! ## The converter's patterns (transcribed from the source) -/

def wsTok : Re := .tok isWs
def wordTok : Re := .tok isWordChar
def digitTok : Re := .tok Char.isDigit
def notTok (c : Char) : Re := .tok (fun d => d != c)

/-- `for\s*\(\s*(?:int|var)\s+(\w+)\s*=\s*([^;]+);\s*\1\s*([<>]=?)\s*([^;]+);\s*\1\s*(\+\+|--|\+=\s*\d+|-=\s*\d+)\s*\)` -/
def forPat : Re := rseq [rlit "for", .star wsTok, rlit "(", .star wsTok,
  .alt (rlit "int") (rlit "var"), rplus wsTok,
  .grp 1 (rplus wordTok), .star wsTok, rlit "=", .star wsTok,
  .grp 2 (rplus (notTok ';')), rlit ";", .star wsTok, .bref 1, .star wsTok,
  .grp 3 (.seq (.tok (fun c => c == '<' || c == '>')) (.opt (rlit "="))),
  .star wsTok, .grp 4 (rplus (notTok ';')), rlit ";", .star wsTok, .bref 1, .star wsTok,
  .grp 5 (.alt (rlit "++") (.alt (rlit "--")
    (.alt (rseq [rlit "+=", .star wsTok, rplus digitTok])
          (rseq [rlit "-=", .star wsTok, rplus digitTok])))),
  .star wsTok, rlit ")"]

/-- `while\s*\(([^)]+)\)` -/
def whilePat : Re := rseq [rlit "while", .star wsTok, rlit "(",
  .grp 1 (rplus (notTok ')')), rlit ")"]

/-- `foreach\s*\(\s*(?:var|(\w+))\s+(\w+)\s+in\s+([^)]+)\)` -/
def foreachPat : Re := rseq [rlit "foreach", .star wsTok, rlit "(", .star wsTok,
  .alt (rlit "var") (.grp 1 (rplus wordTok)), rplus wsTok,
  .grp 2 (rplus wordTok), rplus wsTok, rlit "in", rplus wsTok,
  .grp 3 (rplus (notTok ')')), rlit ")"]

/-- `switch\s*\(([^)]+)\)\s*\{` -/
def switchPat : Re := rseq [rlit "switch", .star wsTok, rlit "(",
  .grp 1 (rplus (notTok ')')), rlit ")", .star wsTok, .lit ['\x7b']]

/-- `Debug\.Log\s*\(([^)]+)\)` -/
def debugLogPat : Re := rseq [rlit "Debug.Log", .star wsTok, rlit "(",
  .grp 1 (rplus (notTok ')')), rlit ")"]

/-- `if\s*\(([^)]+)\)` -/
def ifPat : Re := rseq [rlit "if", .star wsTok, rlit "(",
  .grp 1 (rplus (notTok ')')), rlit ")"]

/-- `(\w+)\s*=\s*([^;]+);` -/
def assignPat : Re := rseq [.grp 1 (rplus wordTok), .star wsTok, rlit "=",
  .star wsTok, .grp 2 (rplus (notTok ';')), rlit ";"]

/-- `yield\s+return\s+(?:new\s+)?(\w+)\s*(?:\(([^)]*)\))?` -/
def yieldPat : Re := rseq [rlit "yield", rplus wsTok, rlit "return", rplus wsTok,
  .opt (.seq (rlit "new") (rplus wsTok)),
  .grp 1 (rplus wordTok), .star wsTok,
  .opt (rseq [rlit "(", .grp 2 (.star (notTok ')')), rlit ")"])]

/-- `(\w+)\.(\w+)\s*\(([^)]*)\)` -/
def methodCallPat : Re := rseq [.grp 1 (rplus wordTok), rlit ".",
  .grp 2 (rplus wordTok), .star wsTok, rlit "(",
  .grp 3 (.star (notTok ')')), rlit ")"]

/-- `case\s+\d+:` (used only for counting). -/
def casePat : Re := rseq [rlit "case", rplus wsTok, rplus digitTok, rlit ":"]

/-- The method-declaration pattern of `CSharpParser._extract_methods`:
`(?:\[(?:[^\]]+)\])?\s*(public|private|protected|internal)?\s*(static)?\s*(virtual|override|abstract)?\s*(async)?\s*(\w+(?:<[^>]+>)?)\s+(\w+)\s*\(([^)]*)\)\s*\{` -/
def methodPat : Re := rseq [
  .opt (rseq [rlit "[", rplus (notTok ']'), rlit "]"]),
  .star wsTok,
  .opt (.grp 1 (.alt (rlit "public") (.alt (rlit "private")
    (.alt (rlit "protected") (rlit "internal"))))),
  .star wsTok,
  .opt (.grp 2 (rlit "static")),
  .star wsTok,
  .opt (.grp 3 (.alt (rlit "virtual") (.alt (rlit "override") (rlit "abstract")))),
  .star wsTok,
  .opt (.grp 4 (rlit "async")),
  .star wsTok,
  .grp 5 (.seq (rplus wordTok) (.opt (rseq [rlit "<", rplus (notTok '>'), rlit ">"]))),
  rplus wsTok,
  .grp 6 (rplus wordTok),
  .star wsTok, rlit "(", .grp 7 (.star (notTok ')')), rlit ")", .star wsTok, .lit ['\x7b']]

/-- `class\s+(\w+)\s*(?::\s*(\w+))?` -/
def classPat : Re := rseq [rlit "class", rplus wsTok, .grp 1 (rplus wordTok),
  .star wsTok, .opt (rseq [rlit ":", .star wsTok, .grp 2 (rplus wordTok)])]

/-! ## Data model (`Port`, `Node`, `Connection`)

`Variable` is declared in the source but never used by the translation
rules, so it is not modelled.  A `Port.default_value` is never set by any
creator, so the field is omitted.  A literal node's serialized
`value.$type` always equals its `type` entry, so we store only the
`$content` payload. -/

inductive PortType where
  | controlInput | controlOutput | valueInput | valueOutput
deriving DecidableEq, Repr

structure Port where
  pname : String
  portType : PortType
  dataType : Option String := none
deriving DecidableEq, Repr

/-- Python values stored in `default_values` (`praw` holds the raw text of a
parsed float, whose numeric value the converter never inspects). -/
inductive PyVal where
  | pint : Int → PyVal
  | pstr : String → PyVal
  | praw : String → PyVal
deriving DecidableEq, Repr

structure MemberInfo where
  mname : String
  parameterTypes : List String
  targetType : String
  parameterNames : Option (List String) := none
deriving DecidableEq, Repr

/-- The source's `NodeType` enum (`variable` is a Lean keyword, hence
`varNode`). -/
inductive NodeCat where
  | event | flow | data | invoke | getMember | setMember | varNode | operator
deriving DecidableEq, Repr

structure Node where
  guid : String
  node_type : String
  position : Nat × Nat
  category : NodeCat
  ports : List Port := []
  default_values : List (String × PyVal) := []
  member_info : Option MemberInfo := none
  description : Option String := none
deriving DecidableEq, Repr

structure Connection where
  guid : String
  source_unit_id : String
  source_key : String
  destination_unit_id : String
  destination_key : String
  connection_type : String
deriving DecidableEq, Repr

/-- The generator's sources of identity: `g` is the `uuid.uuid4()` stream
(the n-th generated guid is `g n`), `h` models `abs(hash(...))` on strings
(CPython string hashing is process-seeded, so it is a parameter too). -/
structure Ids where
  g : Nat → String
  h : String → Nat

structure GenState where
  guidIdx : Nat
  posX : Nat
  posY : Nat
deriving DecidableEq, Repr

def new_guid (ids : Ids) (st : GenState) : String × GenState :=
  (ids.g st.guidIdx, { st with guidIdx := st.guidIdx + 1 })

/-- `_next_position`: return the cursor, advance x by 250, wrap to a new row
past 1000. -/
def next_position (st : GenState) : (Nat × Nat) × GenState :=
  let x2 := st.posX + 250
  if x2 > 1000 then ((st.posX, st.posY), { st with posX := 0, posY := st.posY + 150 })
  else ((st.posX, st.posY), { st with posX := x2 })

/-- `Node.to_dict`'s `$id`: `str(abs(hash(guid)) % 10000)`. -/
def node_id (ids : Ids) (n : Node) : String := toString (ids.h n.guid % 10000)

def UNITY_EVENTS : List (String × String) := [
  ("Start", "Unity.VisualScripting.Start"),
  ("Update", "Unity.VisualScripting.Update"),
  ("Awake", "Unity.VisualScripting.Awake"),
  ("OnEnable", "Unity.VisualScripting.OnEnable"),
  ("OnDisable", "Unity.VisualScripting.OnDisable"),
  ("OnDestroy", "Unity.VisualScripting.OnDestroy"),
  ("FixedUpdate", "Unity.VisualScripting.FixedUpdate"),
  ("LateUpdate", "Unity.VisualScripting.LateUpdate"),
  ("OnTriggerEnter", "Unity.VisualScripting.OnTriggerEnter"),
  ("OnTriggerExit", "Unity.VisualScripting.OnTriggerExit"),
  ("OnTriggerStay", "Unity.VisualScripting.OnTriggerStay"),
  ("OnCollisionEnter", "Unity.VisualScripting.OnCollisionEnter"),
  ("OnCollisionExit", "Unity.VisualScripting.OnCollisionExit"),
  ("OnCollisionStay", "Unity.VisualScripting.OnCollisionStay")]

def lookupEvent (mname : List Char) : Option String :=
  (UNITY_EVENTS.find? (fun p => p.1.data == mname)).map (·.2)

/-- `method["name"] in self.UNITY_EVENTS` (dict-key membership). -/
def isUnityEvent (mname : List Char) : Bool := (lookupEvent mname).isSome

def TYPE_MAPPINGS : List (String × String) := [
  ("int", "System.Int32"),
  ("float", "System.Single"),
  ("double", "System.Double"),
  ("bool", "System.Boolean"),
  ("string", "System.String"),
  ("Vector2", "UnityEngine.Vector2"),
  ("Vector3", "UnityEngine.Vector3"),
  ("Quaternion", "UnityEngine.Quaternion"),
  ("GameObject", "UnityEngine.GameObject"),
  ("Transform", "UnityEngine.Transform")]

/-- `TYPE_MAPPINGS.get(t, t)`. -/
def mapType (t : String) : String :=
  ((TYPE_MAPPINGS.find? (fun p => p.1 == t)).map (·.2)).getD t

/-! ## Node creators (one per `_create_*` method, same field contents; each
draws its guid first and its layout position second, as in the source's
constructor-argument order) -/

def create_event_node (ids : Ids) (event_name : List Char) (st : GenState) :
    Node × GenState :=
  let event_type := (lookupEvent event_name).getD "Unity.VisualScripting.Start"
  let gr := new_guid ids st
  let pr := next_position gr.2
  ({ guid := gr.1, node_type := event_type, position := pr.1, category := .event,
     ports := [{ pname := "trigger", portType := .controlOutput }] }, pr.2)

/-- `_create_invoke_node` (parameters are (type, name) pairs). -/
def create_invoke_node (ids : Ids) (method_name target_type : String)
    (parameters : List (String × String)) (return_type : Option String)
    (st : GenState) : Node × GenState :=
  let member : MemberInfo :=
    { mname := method_name, parameterTypes := parameters.map (·.1),
      targetType := target_type }
  let ports : List Port :=
    [{ pname := "enter", portType := .controlInput },
     { pname := "exit", portType := .controlOutput }] ++
    (List.range parameters.length).map (fun i =>
      { pname := toString i, portType := .valueInput,
        dataType := some ((parameters.get! i).1) }) ++
    (match return_type with
     | some rt => if rt != "void" then
         [{ pname := "result", portType := .valueOutput, dataType := some rt }] else []
     | none => [])
  let gr := new_guid ids st
  let pr := next_position gr.2
  ({ guid := gr.1, node_type := "Unity.VisualScripting.InvokeMember", position := pr.1,
     category := .invoke, ports := ports, member_info := some member }, pr.2)

def create_literal_node (ids : Ids) (value : PyVal) (value_type : String)
    (st : GenState) : Node × GenState :=
  let mapped_type := mapType value_type
  let gr := new_guid ids st
  let pr := next_position gr.2
  ({ guid := gr.1, node_type := "Unity.VisualScripting.Literal", position := pr.1,
     category := .data,
     ports := [{ pname := "output", portType := .valueOutput, dataType := some mapped_type }],
     default_values := [("type", .pstr mapped_type), ("value", value)] }, pr.2)

def create_if_node (ids : Ids) (st : GenState) : Node × GenState :=
  let gr := new_guid ids st
  let pr := next_position gr.2
  ({ guid := gr.1, node_type := "Unity.VisualScripting.If", position := pr.1,
     category := .flow,
     ports := [{ pname := "enter", portType := .controlInput },
       { pname := "condition", portType := .valueInput, dataType := some "System.Boolean" },
       { pname := "true", portType := .controlOutput },
       { pname := "false", portType := .controlOutput }] }, pr.2)

def create_for_node (ids : Ids) (st : GenState) : Node × GenState :=
  let gr := new_guid ids st
  let pr := next_position gr.2
  ({ guid := gr.1, node_type := "Unity.VisualScripting.For", position := pr.1,
     category := .flow,
     ports := [{ pname := "enter", portType := .controlInput },
       { pname := "firstIndex", portType := .valueInput, dataType := some "System.Int32" },
       { pname := "lastIndex", portType := .valueInput, dataType := some "System.Int32" },
       { pname := "step", portType := .valueInput, dataType := some "System.Int32" },
       { pname := "body", portType := .controlOutput },
       { pname := "exit", portType := .controlOutput },
       { pname := "currentIndex", portType := .valueOutput, dataType := some "System.Int32" }] }, pr.2)

def create_while_node (ids : Ids) (st : GenState) : Node × GenState :=
  let gr := new_guid ids st
  let pr := next_position gr.2
  ({ guid := gr.1, node_type := "Unity.VisualScripting.While", position := pr.1,
     category := .flow,
     ports := [{ pname := "enter", portType := .controlInput },
       { pname := "condition", portType := .valueInput, dataType := some "System.Boolean" },
       { pname := "body", portType := .controlOutput },
       { pname := "exit", portType := .controlOutput }] }, pr.2)

def create_foreach_node (ids : Ids) (st : GenState) : Node × GenState :=
  let gr := new_guid ids st
  let pr := next_position gr.2
  ({ guid := gr.1, node_type := "Unity.VisualScripting.ForEach", position := pr.1,
     category := .flow,
     ports := [{ pname := "enter", portType := .controlInput },
       { pname := "collection", portType := .valueInput,
         dataType := some "System.Collections.IEnumerable" },
       { pname := "body", portType := .controlOutput },
       { pname := "exit", portType := .controlOutput },
       { pname := "currentItem", portType := .valueOutput, dataType := some "System.Object" }] }, pr.2)

/-- `_create_switch_node`: `enter`/`selector`, one numbered control output
per counted case, then the fixed `default` output. -/
def create_switch_node (ids : Ids) (num_cases : Nat) (st : GenState) :
    Node × GenState :=
  let ports : List Port :=
    [{ pname := "enter", portType := .controlInput },
     { pname := "selector", portType := .valueInput, dataType := some "System.Int32" }] ++
    (List.range num_cases).map (fun i => { pname := toString i, portType := .controlOutput }) ++
    [{ pname := "default", portType := .controlOutput }]
  let gr := new_guid ids st
  let pr := next_position gr.2
  ({ guid := gr.1, node_type := "Unity.VisualScripting.SwitchOnInteger", position := pr.1,
     category := .flow, ports := ports }, pr.2)

def ARITH_MAP : List (String × String) := [
  ("+", "Unity.VisualScripting.GenericAdd"),
  ("-", "Unity.VisualScripting.GenericSubtract"),
  ("*", "Unity.VisualScripting.GenericMultiply"),
  ("/", "Unity.VisualScripting.GenericDivide"),
  ("%", "Unity.VisualScripting.GenericModulo")]

def create_arithmetic_node (ids : Ids) (operation : String) (st : GenState) :
    Node × GenState :=
  let node_type := ((ARITH_MAP.find? (fun p => p.1 == operation)).map (·.2)).getD
    "Unity.VisualScripting.GenericAdd"
  let gr := new_guid ids st
  let pr := next_position gr.2
  ({ guid := gr.1, node_type := node_type, position := pr.1, category := .operator,
     ports := [{ pname := "a", portType := .valueInput, dataType := some "System.Object" },
       { pname := "b", portType := .valueInput, dataType := some "System.Object" },
       { pname := "result", portType := .valueOutput, dataType := some "System.Object" }] }, pr.2)

def COMPARE_MAP : List (String × String) := [
  ("==", "Unity.VisualScripting.GenericEqual"),
  ("!=", "Unity.VisualScripting.GenericNotEqual"),
  ("<", "Unity.VisualScripting.GenericLess"),
  (">", "Unity.VisualScripting.GenericGreater"),
  ("<=", "Unity.VisualScripting.GenericLessOrEqual"),
  (">=", "Unity.VisualScripting.GenericGreaterOrEqual")]

def create_comparison_node (ids : Ids) (operation : String) (st : GenState) :
    Node × GenState :=
  let node_type := ((COMPARE_MAP.find? (fun p => p.1 == operation)).map (·.2)).getD
    "Unity.VisualScripting.GenericEqual"
  let gr := new_guid ids st
  let pr := next_position gr.2
  ({ guid := gr.1, node_type := node_type, position := pr.1, category := .operator,
     ports := [{ pname := "a", portType := .valueInput, dataType := some "System.Object" },
       { pname := "b", portType := .valueInput, dataType := some "System.Object" },
       { pname := "result", portType := .valueOutput, dataType := some "System.Boolean" }] }, pr.2)

def create_yield_return_node (ids : Ids) (st : GenState) : Node × GenState :=
  let gr := new_guid ids st
  let pr := next_position gr.2
  ({ guid := gr.1, node_type := "Unity.VisualScripting.YieldReturn", position := pr.1,
     category := .flow,
     ports := [{ pname := "enter", portType := .controlInput },
       { pname := "exit", portType := .controlOutput },
       { pname := "instruction", portType := .valueInput,
         dataType := some "UnityEngine.YieldInstruction" }] }, pr.2)

/-- `_create_wait_for_seconds_node` (the parsed float is kept as its raw
text; its numeric value is never read). -/
def create_wait_for_seconds_node (ids : Ids) (seconds : String) (st : GenState) :
    Node × GenState :=
  let gr := new_guid ids st
  let pr := next_position gr.2
  ({ guid := gr.1, node_type := "Unity.VisualScripting.WaitForSeconds", position := pr.1,
     category := .data,
     ports := [{ pname := "seconds", portType := .valueInput, dataType := some "System.Single" },
       { pname := "result", portType := .valueOutput, dataType := some "UnityEngine.WaitForSeconds" }],
     default_values := [("seconds", .praw seconds)] }, pr.2)

def create_custom_invoke_node (ids : Ids) (method_name target_type : String)
    (parameters : List (String × String)) (return_type : Option String)
    (is_static : Bool) (st : GenState) : Node × GenState :=
  let param_types := parameters.map (fun p => mapType p.1)
  let param_names := parameters.map (·.2)
  let member : MemberInfo :=
    { mname := method_name, parameterTypes := param_types,
      targetType := target_type, parameterNames := some param_names }
  let targetPort : Port :=
    { pname := "target", portType := .valueInput, dataType := some target_type }
  let ports : List Port :=
    [{ pname := "enter", portType := .controlInput },
     { pname := "exit", portType := .controlOutput }] ++
    (if !is_static then [targetPort] else []) ++
    parameters.map (fun p =>
      { pname := "%" ++ p.2, portType := .valueInput, dataType := some (mapType p.1) }) ++
    (match return_type with
     | some rt => if rt != "void" then
         [{ pname := "result", portType := .valueOutput, dataType := some (mapType rt) }] else []
     | none => [])
  let gr := new_guid ids st
  let pr := next_position gr.2
  ({ guid := gr.1, node_type := "Unity.VisualScripting.InvokeMember", position := pr.1,
     category := .invoke, ports := ports, member_info := some member }, pr.2)

def create_set_variable_node (ids : Ids) (var_name var_type : String)
    (st : GenState) : Node × GenState :=
  let gr := new_guid ids st
  let pr := next_position gr.2
  ({ guid := gr.1, node_type := "Unity.VisualScripting.SetVariable", position := pr.1,
     category := .varNode,
     ports := [{ pname := "enter", portType := .controlInput },
       { pname := "exit", portType := .controlOutput },
       { pname := "input", portType := .valueInput, dataType := some var_type }],
     default_values := [("name", .pstr var_name)] }, pr.2)

def create_get_variable_node (ids : Ids) (var_name var_type : String)
    (st : GenState) : Node × GenState :=
  let gr := new_guid ids st
  let pr := next_position gr.2
  ({ guid := gr.1, node_type := "Unity.VisualScripting.GetVariable", position := pr.1,
     category := .varNode,
     ports := [{ pname := "output", portType := .valueOutput, dataType := some var_type }],
     default_values := [("name", .pstr var_name)] }, pr.2)

/-- `_create_connection` (endpoints are recorded as the nodes' display ids,
computed exactly as `to_dict` computes `$id`). -/
def create_connection (ids : Ids) (source_node : Node) (source_key : String)
    (dest_node : Node) (destination_key : String) (is_control : Bool)
    (st : GenState) : Connection × GenState :=
  let conn_type := if is_control then "Unity.VisualScripting.ControlConnection"
    else "Unity.VisualScripting.ValueConnection"
  let gr := new_guid ids st
  ({ guid := gr.1, source_unit_id := node_id ids source_node, source_key := source_key,
     destination_unit_id := node_id ids dest_node, destination_key := destination_key,
     connection_type := conn_type }, gr.2)

/-! ## Per-category statement translation (`_process_method`)

Each construct category repeats the same wiring block in the source:
if a cursor node exists, connect it (source key `trigger` when the cursor
still equals the event node, else `exit`) to the new construct's `enter`
port.  `wire_from` is that block.  Each category scan is a fold
(`foldCat`) of a per-match step over the category's `finditer` matches;
the per-match steps return `Option` because the for-loop step can raise
(`int(...)` on a captured bound that passes `isdigit` but is not a decimal
numeral). -/

/-- `"trigger" if last_node == event_node else "exit"` (dataclass equality
is structural). -/
def wire_key (event_node : Option Node) (ln : Node) : String :=
  match event_node with
  | some ev => if ln = ev then "trigger" else "exit"
  | none => "exit"

/-- The repeated `if last_node: ...` control-wiring block. -/
def wire_from (ids : Ids) (event_node last : Option Node) (dest : Node)
    (st : GenState) : List Connection × GenState :=
  match last with
  | none => ([], st)
  | some ln =>
    let (c, st) := create_connection ids ln (wire_key event_node ln) dest "enter" true st
    ([c], st)

abbrev StepOut := List Node × List Connection × Option Node × GenState

abbrev StepFn := RMatch → Option Node → GenState → Option StepOut

def foldCat (step : StepFn) : List RMatch → Option Node → GenState → Option StepOut
  | [], last, st => some ([], [], last, st)
  | m :: ms2, last, st =>
    match step m last st with
    | none => none
    | some (ns, cs, last2, st2) =>
      match foldCat step ms2 last2 st2 with
      | none => none
      | some (ns2, cs2, last3, st3) => some (ns ++ ns2, cs ++ cs2, last3, st3)

/-- `int(v) if v.isdigit() else dflt` — `none` models the `ValueError`
raised when `isdigit` accepts a non-decimal digit (e.g. a superscript). -/
def for_bound (v : List Char) (dflt : Int) : Option Int :=
  if pyStrIsDigit v then pyIntParse? v else some dflt

/-- For-loop step: one `For` node, two bound literals, the control wire, and
two value wires into `%firstIndex` / `%lastIndex`.  Captures 1/3/5
(variable, comparison, increment) are bound but unused in the source.  Both
bound parses are evaluated up front; in the source the start bound is
parsed between the two literal creations, but since a parse failure aborts
the whole conversion, the difference is unobservable. -/
def for_step (ids : Ids) (event_node : Option Node) : StepFn := fun m last st =>
  let start_val := pyStrip (capD m 2)
  let end_val := pyStrip (capD m 4)
  let fr := create_for_node ids st
  let for_node := fr.1
  match for_bound start_val 0, for_bound end_val 10 with
  | some sv, some ev2 =>
    let sr := create_literal_node ids (.pint sv) "int" fr.2
    let start_literal := sr.1
    let er := create_literal_node ids (.pint ev2) "int" sr.2
    let end_literal := er.1
    let wf := wire_from ids event_node last for_node er.2
    let c1r := create_connection ids start_literal "output" for_node "%firstIndex" false wf.2
    let c2r := create_connection ids end_literal "output" for_node "%lastIndex" false c1r.2
    some ([for_node, start_literal, end_literal], wf.1 ++ [c1r.1, c2r.1],
      some for_node, c2r.2)
  | _, _ => none

def while_step (ids : Ids) (event_node : Option Node) : StepFn := fun _ last st =>
  let wr := create_while_node ids st
  let while_node := wr.1
  let wf := wire_from ids event_node last while_node wr.2
  some ([while_node], wf.1, some while_node, wf.2)

def foreach_step (ids : Ids) (event_node : Option Node) : StepFn := fun _ last st =>
  let wr := create_foreach_node ids st
  let foreach_node := wr.1
  let wf := wire_from ids event_node last foreach_node wr.2
  some ([foreach_node], wf.1, some foreach_node, wf.2)

/-- Switch step: the body after the pattern's opening brace is re-scanned by
`extract_switch_body` and the `case N:` labels in it are counted. -/
def extract_switch_body_pre (code : List Char) (start_pos : Nat) : List Char :=
  code.drop start_pos

def switch_scan : List Char → Int → Nat → Option Nat
  | [], _, _ => none
  | c :: rest, depth, i =>
    if c == '\x7b' then switch_scan rest (depth + 1) (i + 1)
    else if c == '\x7d' then
      if depth - 1 == 0 then some i else switch_scan rest (depth - 1) (i + 1)
    else switch_scan rest depth (i + 1)

/-- `_extract_switch_body`: depth-count braces starting *at* `start_pos`
(which, at its call site, is the position just past the switch's opening
brace); the body is `code[start_pos:end_pos]` with `end_pos` the index of
the brace that returns the count to zero, or `start_pos` when the count
never does. -/
def extract_switch_body (code : List Char) (start_pos : Nat) : List Char :=
  match switch_scan (code.drop start_pos) 0 0 with
  | some i => (code.drop start_pos).take i
  | none => []

/-- `_extract_body`: same depth count, but `end_pos` includes the closing
brace (`start_pos + i + 1`); at its call site `start_pos` is the position
*of* the opening brace. -/
def extract_body (code : List Char) (start_pos : Nat) : List Char :=
  match switch_scan (code.drop start_pos) 0 0 with
  | some i => (code.drop start_pos).take (i + 1)
  | none => []

def switch_step (ids : Ids) (event_node : Option Node) (body : List Char) : StepFn :=
  fun m last st =>
  let switch_body := extract_switch_body body m.me
  let num_cases := (findIter casePat switch_body).length
  let wr := create_switch_node ids num_cases st
  let switch_node := wr.1
  let wf := wire_from ids event_node last switch_node wr.2
  some ([switch_node], wf.1, some switch_node, wf.2)

def startsWithQuote : List Char → Bool
  | c :: _ => c == '"'
  | [] => false

def endsWithQuote (l : List Char) : Bool :=
  match l.getLast? with
  | some c => c == '"'
  | none => false

def debug_step (ids : Ids) (event_node : Option Node) : StepFn := fun m last st =>
  let log_arg := pyStrip (capD m 1)
  let dr := create_invoke_node ids "Log" "UnityEngine.Debug"
    [("System.Object", "message")] none st
  let debug_node := dr.1
  let wf := wire_from ids event_node last debug_node dr.2
  if startsWithQuote log_arg && endsWithQuote log_arg then
    let literal_value : String := ⟨(log_arg.drop 1).dropLast⟩
    let lr := create_literal_node ids (.pstr literal_value) "string" wf.2
    let literal_node := lr.1
    let cr := create_connection ids literal_node "output" debug_node "%message" false lr.2
    some ([debug_node, literal_node], wf.1 ++ [cr.1], some debug_node, cr.2)
  else
    some ([debug_node], wf.1 ++ [], some debug_node, wf.2)

/-- First operator of `ops` occurring as a substring of `s` (the source
iterates the operator list and breaks at the first hit; the subsequent
`len(condition.split(op, 1)) == 2` check always holds at a hit). -/
def firstContained (ops : List String) (s : List Char) : Option String :=
  ops.find? (fun op => containsSub op.data s)

def comparison_ops : List String := ["<=", ">=", "==", "!=", "<", ">"]

def if_step (ids : Ids) (event_node : Option Node) : StepFn := fun m last st =>
  let condition := pyStrip (capD m 1)
  let ir := create_if_node ids st
  let if_node := ir.1
  let wf := wire_from ids event_node last if_node ir.2
  match firstContained comparison_ops condition with
  | some op =>
    let cr := create_comparison_node ids op wf.2
    let comp_node := cr.1
    let ccr := create_connection ids comp_node "result" if_node "%condition" false cr.2
    some ([if_node, comp_node], wf.1 ++ [ccr.1], some if_node, ccr.2)
  | none => some ([if_node], wf.1 ++ [], some if_node, wf.2)

def arithmetic_ops : List String := ["+", "-", "*", "/", "%"]

/-- Assignment step.  The per-operator guard is
`op in var_value and not var_value.startswith('"')`; since the quote test
does not depend on the operator, it is equivalent to the quote test
followed by the first contained operator. -/
def assign_step (ids : Ids) (event_node : Option Node) : StepFn := fun m last st =>
  let var_name : String := ⟨capD m 1⟩
  let var_value := pyStrip (capD m 2)
  let sr := create_set_variable_node ids var_name "System.Object" st
  let set_var_node := sr.1
  let wf := wire_from ids event_node last set_var_node sr.2
  match (if startsWithQuote var_value then none
         else firstContained arithmetic_ops var_value) with
  | some op =>
    let ar := create_arithmetic_node ids op wf.2
    let arith_node := ar.1
    let acr := create_connection ids arith_node "result" set_var_node "%input" false ar.2
    some ([set_var_node, arith_node], wf.1 ++ [acr.1], some set_var_node, acr.2)
  | none => some ([set_var_node], wf.1 ++ [], some set_var_node, wf.2)

/-- Yield step.  The wait-helper is created only when the yielded type is
`WaitForSeconds`, the argument group is set and nonempty (Python
truthiness), and `float(...)` succeeds; a parse failure is swallowed by the
source's `try/except ValueError`. -/
def yield_step (ids : Ids) (event_node : Option Node) : StepFn := fun m last st =>
  let yield_type := capD m 1
  let yield_args := capGet m.caps 2
  let yr := create_yield_return_node ids st
  let yield_node := yr.1
  let wf := wire_from ids event_node last yield_node yr.2
  if yield_type == "WaitForSeconds".data &&
     (match yield_args with | some a => !a.isEmpty | none => false) then
    let a := pyStrip (yield_args.getD [])
    if pyFloatAccepts a then
      let wr := create_wait_for_seconds_node ids (⟨a⟩ : String) wf.2
      let wait_node := wr.1
      let wcr := create_connection ids wait_node "result" yield_node "%instruction" false wr.2
      some ([yield_node, wait_node], wf.1 ++ [wcr.1], some yield_node, wcr.2)
    else some ([yield_node], wf.1 ++ [], some yield_node, wf.2)
  else some ([yield_node], wf.1 ++ [], some yield_node, wf.2)

def STATIC_TARGETS : List String := ["GameObject", "Transform", "Rigidbody"]

/-- Generic member-call step.  Skips `Debug.Log` (already handled) and calls
whose preceding ~20 characters end, on the same line, with an `=`
(assignment right-hand sides are handled by the assignment category). -/
def call_step (ids : Ids) (event_node : Option Node) (body : List Char) : StepFn :=
  fun m last st =>
  let target_obj := capD m 1
  let method_name := capD m 2
  let args_str := pyStrip (capD m 3)
  if target_obj == "Debug".data && method_name == "Log".data then
    some ([], [], last, st)
  else
    let pre_context := (body.take m.ms).drop (m.ms - 20)
    let last_line := ((splitOnChar '\n' pre_context).getLast?).getD []
    if containsSub ['='] last_line then
      some ([], [], last, st)
    else
      let target_type : String :=
        if STATIC_TARGETS.any (fun t => t.data == target_obj) then
          "UnityEngine." ++ (⟨target_obj⟩ : String)
        else ⟨target_obj⟩
      let arg_count :=
        if args_str.isEmpty then 0
        else ((splitOnChar ',' args_str).filter (fun a => !(pyStrip a).isEmpty)).length
      let parameters := (List.range arg_count).map
        (fun i => ("System.Object", "arg" ++ toString i))
      let cr := create_custom_invoke_node ids (⟨method_name⟩ : String)
        target_type parameters (some "void") false st
      let custom_node := cr.1
      let wf := wire_from ids event_node last custom_node cr.2
      some ([custom_node], wf.1, some custom_node, wf.2)

structure MethodRec where
  mname : List Char
  body : List Char
  comments : List Char
deriving DecidableEq, Repr

/-- Late attachment of the harvested comment as the event node's
description (`if method.get("comments") and nodes: if event_node: ...`).
Python mutates the event-node *object*; that object, when it exists, is by
construction the first element of the method's node list, so the mutation
is rendered as a head update. -/
def attach_comment (comments : List Char) (event_node : Option Node)
    (ns : List Node) : List Node :=
  if !comments.isEmpty && !ns.isEmpty then
    match event_node with
    | some _ =>
      match ns with
      | n0 :: rest => { n0 with description := some (⟨comments⟩ : String) } :: rest
      | [] => []
    | none => ns
  else ns

/-- `_process_method`: optional event node, then the nine category scans in
their fixed order, each threading the shared control cursor; `none` models
the `ValueError` escape from the for-loop category. -/
def process_method (ids : Ids) (method : MethodRec) (st : GenState) :
    Option (List Node × List Connection × GenState) :=
  let eres : Option Node × Option Node × List Node × GenState :=
    if isUnityEvent method.mname then
      let er := create_event_node ids method.mname st
      (some er.1, some er.1, [er.1], er.2)
    else (none, none, [], st)
  let event_node := eres.1
  let last0 := eres.2.1
  let nodes0 := eres.2.2.1
  let st0 := eres.2.2.2
  let body := method.body
  do
  let (n1, c1, l1, s1) ← foldCat (for_step ids event_node) (findIter forPat body) last0 st0
  let (n2, c2, l2, s2) ← foldCat (while_step ids event_node) (findIter whilePat body) l1 s1
  let (n3, c3, l3, s3) ← foldCat (foreach_step ids event_node) (findIter foreachPat body) l2 s2
  let (n4, c4, l4, s4) ← foldCat (switch_step ids event_node body) (findIter switchPat body) l3 s3
  let (n5, c5, l5, s5) ← foldCat (debug_step ids event_node) (findIter debugLogPat body) l4 s4
  let (n6, c6, l6, s6) ← foldCat (if_step ids event_node) (findIter ifPat body) l5 s5
  let (n7, c7, l7, s7) ← foldCat (assign_step ids event_node) (findIter assignPat body) l6 s6
  let (n8, c8, l8, s8) ← foldCat (yield_step ids event_node) (findIter yieldPat body) l7 s7
  let (n9, c9, _, s9) ← foldCat (call_step ids event_node body) (findIter methodCallPat body) l8 s8
  let ns := nodes0 ++ (n1 ++ (n2 ++ (n3 ++ (n4 ++ (n5 ++ (n6 ++ (n7 ++ (n8 ++ n9))))))))
  let cs := c1 ++ (c2 ++ (c3 ++ (c4 ++ (c5 ++ (c6 ++ (c7 ++ (c8 ++ c9)))))))
  pure (attach_comment method.comments event_node ns, cs, s9)

/-! ## The parser (`CSharpParser`)

Only what the generator consumes is modelled: the class name (graph
title/summary) and, per method, its name, raw body and harvested comment.
The extractor's `usings`, `namespace`, fields, parameter lists,
access/static/coroutine flags are recovered by the source but never read
by the generator, and are omitted. -/

def stripCharsLeft (cs : List Char) (l : List Char) : List Char :=
  l.dropWhile (fun c => cs.contains c)

def stripCharsRight (cs : List Char) (l : List Char) : List Char :=
  (l.reverse.dropWhile (fun c => cs.contains c)).reverse

/-- The reversed scan of `_extract_method_comments` (lines are already
reversed; `insert(0, ...)` is prepending to the accumulator). -/
def comments_scan : List (List Char) → List (List Char) → List (List Char)
  | [], acc => acc
  | l :: rest, acc =>
    let line := pyStrip l
    if "//".data.isPrefixOf line then
      comments_scan rest (pyStrip (line.drop 2) :: acc)
    else if "/*".data.isPrefixOf line || "*".data.isPrefixOf line then
      comments_scan rest
        (pyStrip (stripCharsRight ['*', '/'] (stripCharsLeft ['/', '*'] line)) :: acc)
    else if !line.isEmpty && !("[".data.isPrefixOf line) then acc
    else comments_scan rest acc

/-- `_extract_method_comments`: scan the last 5 lines before the match in
reverse, harvest comment lines, join with spaces. -/
def extract_method_comments (code : List Char) (method_pos : Nat) : List Char :=
  let lines_before := splitOnChar '\n' (code.take method_pos)
  List.intercalate [' '] (comments_scan (lines_before.reverse.take 5) [])

def extract_methods (code : List Char) : List MethodRec :=
  (findIter methodPat code).map (fun m =>
    { mname := capD m 6,
      body := extract_body code (m.me - 1),
      comments := extract_method_comments code m.ms })

structure Parsed where
  class_name : Option String
  methods : List MethodRec
deriving DecidableEq, Repr

def parse_csharp (code : List Char) : Parsed :=
  { class_name := ((findIter classPat code).head?).map (fun m => (⟨capD m 1⟩ : String)),
    methods := extract_methods code }

/-! ## Graph assembly and serialization (`generate_graph`, `convert`) -/

inductive Element where
  | node : Node → Element
  | conn : Connection → Element
deriving DecidableEq, Repr

structure Doc where
  title : String
  summary : String
  nodes : List Node
  connections : List Connection
  elements : List Element
deriving DecidableEq, Repr

/-- The method loop of `generate_graph`: extend the flat node and
connection accumulators per method. -/
def gg_methods (ids : Ids) : List MethodRec → List Node → List Connection →
    GenState → Option (List Node × List Connection × GenState)
  | [], ns, cs, st => some (ns, cs, st)
  | m :: rest, ns, cs, st =>
    match process_method ids m st with
    | none => none
    | some (mn, mc, st') => gg_methods ids rest (ns ++ mn) (cs ++ mc) st'

def initState : GenState := { guidIdx := 0, posX := 0, posY := 0 }

def generate_graph (ids : Ids) (p : Parsed) : Option Doc :=
  match gg_methods ids p.methods [] [] initState with
  | none => none
  | some (ns, cs, _) =>
    let elements :=
      cs.foldl (fun acc c => acc ++ [Element.conn c])
        (ns.foldl (fun acc n => acc ++ [Element.node n]) [])
    some { title := p.class_name.getD "ConvertedGraph",
           summary := match p.class_name with
             | some c => "Converted from " ++ c ++ ".cs"
             | none => "Converted Graph",
           nodes := ns, connections := cs, elements := elements }

/-- `convert`: parse, then generate (JSON pretty-printing adds no
information and is not modelled beyond `Doc`). -/
def convert (ids : Ids) (code : String) : Option Doc :=
  generate_graph ids (parse_csharp code.data)

/-! ## Observations used by the theorems -/

/-- A construct (control-cursor) node: one that has an `enter` port.  Event
nodes, literals, comparison/arithmetic operands and wait helpers have
none. -/
def isCtor (n : Node) : Bool := n.ports.any (fun p => p.pname == "enter")

def isCtrlConn (c : Connection) : Bool :=
  c.connection_type == "Unity.VisualScripting.ControlConnection"

/-- The observable quadruple of a control connection. -/
structure CEdge where
  src : String
  skey : String
  dst : String
  dkey : String
deriving DecidableEq, Repr

def ctrlEdges (cs : List Connection) : List CEdge :=
  cs.filterMap (fun c =>
    if isCtrlConn c then
      some { src := c.source_unit_id, skey := c.source_key,
             dst := c.destination_unit_id, dkey := c.destination_key }
    else none)

/-- The control chain demanded by the cursor protocol: from the cursor
`cur` (a source id and source key, or nothing), wire each construct id in
turn into its `enter` port, the cursor becoming that construct's `exit`. -/
def chainFrom : Option (String × String) → List String → List CEdge
  | _, [] => []
  | none, i :: is2 => chainFrom (some (i, "exit")) is2
  | some pk, i :: is2 =>
    { src := pk.1, skey := pk.2, dst := i, dkey := "enter" } ::
      chainFrom (some (i, "exit")) is2

/-- The cursor left after wiring the given construct ids. -/
def chainEnd : Option (String × String) → List String → Option (String × String)
  | cur, [] => cur
  | _, i :: is2 => chainEnd (some (i, "exit")) is2

def dummyNode : Node :=
  { guid := "", node_type := "", position := (0, 0), category := .event }

def emptyDoc : Doc :=
  { title := "", summary := "", nodes := [], connections := [], elements := [] }

/-- The result of `process_method`, defaulting to empty on the raise. -/
def pmOut (ids : Ids) (method : MethodRec) (st : GenState) :
    List Node × List Connection × GenState :=
  (process_method ids method st).getD ([], [], st)

def pmNodes (ids : Ids) (method : MethodRec) (st : GenState) : List Node :=
  (pmOut ids method st).1

def pmConns (ids : Ids) (method : MethodRec) (st : GenState) : List Connection :=
  (pmOut ids method st).2.1

def cdoc (ids : Ids) (code : String) : Doc := (convert ids code).getD emptyDoc

def isForType (n : Node) : Bool := n.node_type == "Unity.VisualScripting.For"

def isIfType (n : Node) : Bool := n.node_type == "Unity.VisualScripting.If"

/-- An integer literal node: a `Literal` whose `type` default is
`System.Int32`. -/
def isIntLiteral (n : Node) : Bool :=
  n.node_type == "Unity.VisualScripting.Literal" &&
    ((n.default_values.find? (fun p => p.1 == "type")).map (·.2)
      == some (PyVal.pstr "System.Int32"))

/-- The `$content` stored in a literal node's `value` default. -/
def litVal (n : Node) : Option PyVal :=
  (n.default_values.find? (fun p => p.1 == "value")).map (·.2)

/-- The numbered case control outputs of a switch node (every control
output except `enter`-side ports and the fixed `default`). -/
def numberedCaseOutputs (n : Node) : List Port :=
  n.ports.filter (fun p =>
    p.portType == PortType.controlOutput && p.pname != "default" &&
      p.pname != "trigger" && p.pname != "exit" && p.pname != "true" &&
      p.pname != "false" && p.pname != "body")

/-- Node-erasure for the determinism claim: every field except the
generated guid. -/
def eraseN (n : Node) :
    String × (Nat × Nat) × NodeCat × List Port × List (String × PyVal) ×
      Option MemberInfo × Option String :=
  (n.node_type, n.position, n.category, n.ports, n.default_values,
   n.member_info, n.description)

/-- Connection-erasure: every field except the generated guid and the
hash-derived endpoint ids. -/
def eraseC (c : Connection) : String × String × String :=
  (c.source_key, c.destination_key, c.connection_type)

def eraseEl : Element → Sum (String × (Nat × Nat) × NodeCat × List Port ×
    List (String × PyVal) × Option MemberInfo × Option String)
    (String × String × String)
  | .node n => .inl (eraseN n)
  | .conn c => .inr (eraseC c)

def edgeOf (c : Connection) : CEdge :=
  { src := c.source_unit_id, skey := c.source_key,
    dst := c.destination_unit_id, dkey := c.destination_key }

def eraseDoc (d : Doc) :
    String × String × List (String × (Nat × Nat) × NodeCat × List Port ×
      List (String × PyVal) × Option MemberInfo × Option String) ×
      List (String × String × String) ×
      List (Sum (String × (Nat × Nat) × NodeCat × List Port ×
        List (String × PyVal) × Option MemberInfo × Option String)
        (String × String × String)) :=
  (d.title, d.summary, d.nodes.map eraseN, d.connections.map eraseC,
   d.elements.map eraseEl)

/-! ## Infrastructure lemmas: the control-cursor protocol

`CursorOK` relates the generator's `last_node` to the abstract cursor (a
pending source id and source key); `EvOK` records that a method's event
node, when present, is not a construct node (it has no `enter` port). -/

def EvOK (ev : Option Node) : Prop := ∀ e, ev = some e → isCtor e = false

def CursorOK (ids : Ids) (ev : Option Node) :
    Option Node → Option (String × String) → Prop
  | none, cur => cur = none
  | some ln, cur => cur = some (node_id ids ln, wire_key ev ln)

theorem wire_key_of_ctor {ev : Option Node} (hev : EvOK ev) (n : Node)
    (hn : isCtor n = true) : wire_key ev n = "exit" := by
  cases ev with
  | none => rfl
  | some e =>
    have hne : n ≠ e := by
      intro h
      rw [h, hev e rfl] at hn
      exact Bool.false_ne_true hn
    simp [wire_key, hne]

theorem ctrlEdges_append (a b : List Connection) :
    ctrlEdges (a ++ b) = ctrlEdges a ++ ctrlEdges b := by
  simp [ctrlEdges, List.filterMap_append]

theorem ctrlEdges_cons_val {c : Connection} (h : isCtrlConn c = false)
    (cs : List Connection) : ctrlEdges (c :: cs) = ctrlEdges cs := by
  simp [ctrlEdges, edgeOf, h]

theorem ctrlEdges_cons_ctrl {c : Connection} (h : isCtrlConn c = true)
    (cs : List Connection) : ctrlEdges (c :: cs) = edgeOf c :: ctrlEdges cs := by
  simp [ctrlEdges, edgeOf, h]

theorem chainFrom_nil (cur : Option (String × String)) : chainFrom cur [] = [] := by
  cases cur <;> rfl

theorem chainEnd_nil (cur : Option (String × String)) : chainEnd cur [] = cur := by
  cases cur <;> rfl

theorem chainFrom_append (xs : List String) :
    ∀ (cur : Option (String × String)) (ys : List String),
      chainFrom cur (xs ++ ys) = chainFrom cur xs ++ chainFrom (chainEnd cur xs) ys := by
  induction xs with
  | nil => intro cur ys; simp [chainFrom, chainEnd]
  | cons x xs ih =>
    intro cur ys
    cases cur with
    | none => simp [chainFrom, chainEnd, ih]
    | some pk => simp [chainFrom, chainEnd, ih]

theorem chainEnd_append (xs : List String) :
    ∀ (cur : Option (String × String)) (ys : List String),
      chainEnd cur (xs ++ ys) = chainEnd (chainEnd cur xs) ys := by
  induction xs with
  | nil => intro cur ys; simp [chainEnd]
  | cons x xs ih =>
    intro cur ys
    cases cur with
    | none => simp [chainEnd, ih]
    | some pk => simp [chainEnd, ih]

/-- Specification of one category step with respect to the cursor protocol:
its control connections are exactly the chain links from the incoming
cursor through its construct nodes, and the outgoing `last_node` matches
the advanced cursor. -/
def ChainStep (ids : Ids) (ev : Option Node) (step : StepFn) : Prop :=
  ∀ m last st ns cs last2 st2 (cur : Option (String × String)),
    CursorOK ids ev last cur →
    step m last st = some (ns, cs, last2, st2) →
    ctrlEdges cs = chainFrom cur ((ns.filter isCtor).map (node_id ids)) ∧
    CursorOK ids ev last2 (chainEnd cur ((ns.filter isCtor).map (node_id ids)))

/-! Facts about the creators: which of them build construct nodes (an
`enter` port) and which build value sources; all reduce definitionally. -/

theorem isCtor_event (ids : Ids) (nm : List Char) (st : GenState) :
    isCtor (create_event_node ids nm st).1 = false := rfl

theorem isCtor_for (ids : Ids) (st : GenState) :
    isCtor (create_for_node ids st).1 = true := rfl

theorem isCtor_while (ids : Ids) (st : GenState) :
    isCtor (create_while_node ids st).1 = true := rfl

theorem isCtor_foreach (ids : Ids) (st : GenState) :
    isCtor (create_foreach_node ids st).1 = true := rfl

theorem isCtor_switch (ids : Ids) (k : Nat) (st : GenState) :
    isCtor (create_switch_node ids k st).1 = true := rfl

theorem isCtor_if (ids : Ids) (st : GenState) :
    isCtor (create_if_node ids st).1 = true := rfl

theorem isCtor_invoke (ids : Ids) (a b : String) (p : List (String × String))
    (r : Option String) (st : GenState) :
    isCtor (create_invoke_node ids a b p r st).1 = true := rfl

theorem isCtor_custom (ids : Ids) (a b : String) (p : List (String × String))
    (r : Option String) (sb : Bool) (st : GenState) :
    isCtor (create_custom_invoke_node ids a b p r sb st).1 = true := rfl

theorem isCtor_setvar (ids : Ids) (a b : String) (st : GenState) :
    isCtor (create_set_variable_node ids a b st).1 = true := rfl

theorem isCtor_yieldnode (ids : Ids) (st : GenState) :
    isCtor (create_yield_return_node ids st).1 = true := rfl

theorem isCtor_literal (ids : Ids) (v : PyVal) (t : String) (st : GenState) :
    isCtor (create_literal_node ids v t st).1 = false := rfl

theorem isCtor_comparison (ids : Ids) (op : String) (st : GenState) :
    isCtor (create_comparison_node ids op st).1 = false := by
  simp only [create_comparison_node, isCtor, new_guid, next_position]
  cases COMPARE_MAP.find? (fun p => p.1 == op) <;> simp

theorem isCtor_arithmetic (ids : Ids) (op : String) (st : GenState) :
    isCtor (create_arithmetic_node ids op st).1 = false := by
  simp only [create_arithmetic_node, isCtor, new_guid, next_position]
  cases ARITH_MAP.find? (fun p => p.1 == op) <;> simp

theorem isCtor_wait (ids : Ids) (s : String) (st : GenState) :
    isCtor (create_wait_for_seconds_node ids s st).1 = false := rfl

theorem isCtrlConn_value (ids : Ids) (a : Node) (k : String) (b : Node)
    (k2 : String) (st : GenState) :
    isCtrlConn (create_connection ids a k b k2 false st).1 = false := rfl

theorem isCtrlConn_control (ids : Ids) (a : Node) (k : String) (b : Node)
    (k2 : String) (st : GenState) :
    isCtrlConn (create_connection ids a k b k2 true st).1 = true := rfl

/-- The common emission shape of all nine steps: one construct node `ctor`,
auxiliary value-source nodes `extras`, the control wire from the cursor,
then value connections `vcs`; the cursor moves to `ctor`. -/
theorem chain_shape (ids : Ids) {ev : Option Node} (hev : EvOK ev)
    {last : Option Node} {cur : Option (String × String)}
    (hcur : CursorOK ids ev last cur)
    {ctor : Node} {extras : List Node} {vcs wc : List Connection}
    {st0 st1 : GenState}
    (hw : wire_from ids ev last ctor st0 = (wc, st1))
    (hctor : isCtor ctor = true)
    (hex : extras.filter isCtor = [])
    (hvc : ctrlEdges vcs = []) :
    ctrlEdges (wc ++ vcs) =
      chainFrom cur (((ctor :: extras).filter isCtor).map (node_id ids)) ∧
    CursorOK ids ev (some ctor)
      (chainEnd cur (((ctor :: extras).filter isCtor).map (node_id ids))) := by
  have hfilter : (ctor :: extras).filter isCtor = [ctor] := by
    simp [List.filter_cons, hctor, hex]
  rw [hfilter]
  cases last with
  | none =>
    have hc : cur = none := hcur
    subst hc
    simp only [wire_from, Prod.mk.injEq] at hw
    obtain ⟨rfl, rfl⟩ := hw.symm
    refine ⟨?_, ?_⟩
    · simp [hvc, chainFrom]
    · show _ = _
      simp [chainEnd, wire_key_of_ctor hev ctor hctor]
  | some ln =>
    have hc : cur = some (node_id ids ln, wire_key ev ln) := hcur
    subst hc
    cases hcc : create_connection ids ln (wire_key ev ln) ctor "enter" true st0 with
    | mk cc stc =>
      have hcc1 : cc = (create_connection ids ln (wire_key ev ln) ctor "enter" true st0).1 := by
        rw [hcc]
      simp only [wire_from, hcc, Prod.mk.injEq] at hw
      obtain ⟨hwc, _⟩ := hw
      have hctl : isCtrlConn cc = true := by
        rw [hcc1]; exact isCtrlConn_control ids ln (wire_key ev ln) ctor "enter" st0
      have hedge : edgeOf cc =
          CEdge.mk (node_id ids ln) (wire_key ev ln) (node_id ids ctor) "enter" := by
        rw [hcc1]; rfl
      constructor
      · rw [← hwc, List.singleton_append, ctrlEdges_cons_ctrl hctl, hvc, hedge]
        simp [chainFrom, chainFrom_nil]
      · show _ = _
        simp [chainEnd, wire_key_of_ctor hev ctor hctor]

/-- A step that emits nothing and leaves the cursor alone (the skip cases
of the generic-call category) trivially satisfies the chain spec. -/
theorem chain_skip (ids : Ids) {ev : Option Node}
    {last : Option Node} {cur : Option (String × String)}
    (hcur : CursorOK ids ev last cur) :
    ctrlEdges ([] : List Connection) =
      chainFrom cur ((([] : List Node).filter isCtor).map (node_id ids)) ∧
    CursorOK ids ev last (chainEnd cur ((([] : List Node).filter isCtor).map (node_id ids))) := by
  have hz : (([] : List Node).filter isCtor).map (node_id ids) = [] := rfl
  rw [hz, chainFrom_nil, chainEnd_nil]
  exact ⟨rfl, hcur⟩

theorem while_chainStep (ids : Ids) {ev : Option Node} (hev : EvOK ev) :
    ChainStep ids ev (while_step ids ev) := by
  intro m last st ns cs last2 st2 cur hcur hstep
  cases hwn : create_while_node ids st with
  | mk wn st1 =>
    cases hw : wire_from ids ev last wn st1 with
    | mk wc stw =>
      simp only [while_step, hwn, hw, Option.some.injEq] at hstep
      obtain ⟨rfl, rfl, rfl, rfl⟩ := hstep
      have hctor : isCtor wn = true := by
        have hp : wn = (create_while_node ids st).1 := by rw [hwn]
        rw [hp]; exact isCtor_while ids st
      have h := chain_shape ids hev hcur hw hctor
        (show ([] : List Node).filter isCtor = [] from rfl)
        (show ctrlEdges ([] : List Connection) = [] from rfl)
      rw [List.append_nil] at h
      exact h

theorem foreach_chainStep (ids : Ids) {ev : Option Node} (hev : EvOK ev) :
    ChainStep ids ev (foreach_step ids ev) := by
  intro m last st ns cs last2 st2 cur hcur hstep
  cases hwn : create_foreach_node ids st with
  | mk wn st1 =>
    cases hw : wire_from ids ev last wn st1 with
    | mk wc stw =>
      simp only [foreach_step, hwn, hw, Option.some.injEq] at hstep
      obtain ⟨rfl, rfl, rfl, rfl⟩ := hstep
      have hctor : isCtor wn = true := by
        have hp : wn = (create_foreach_node ids st).1 := by rw [hwn]
        rw [hp]; exact isCtor_foreach ids st
      have h := chain_shape ids hev hcur hw hctor
        (show ([] : List Node).filter isCtor = [] from rfl)
        (show ctrlEdges ([] : List Connection) = [] from rfl)
      rw [List.append_nil] at h
      exact h

theorem switch_chainStep (ids : Ids) {ev : Option Node} (hev : EvOK ev)
    (body : List Char) : ChainStep ids ev (switch_step ids ev body) := by
  intro m last st ns cs last2 st2 cur hcur hstep
  cases hwn : create_switch_node ids
      (findIter casePat (extract_switch_body body m.me)).length st with
  | mk wn st1 =>
    cases hw : wire_from ids ev last wn st1 with
    | mk wc stw =>
      simp only [switch_step, hwn, hw, Option.some.injEq] at hstep
      obtain ⟨rfl, rfl, rfl, rfl⟩ := hstep
      have hctor : isCtor wn = true := by
        have hp : wn = (create_switch_node ids
            (findIter casePat (extract_switch_body body m.me)).length st).1 := by rw [hwn]
        rw [hp]; exact isCtor_switch ids _ st
      have h := chain_shape ids hev hcur hw hctor
        (show ([] : List Node).filter isCtor = [] from rfl)
        (show ctrlEdges ([] : List Connection) = [] from rfl)
      rw [List.append_nil] at h
      exact h

theorem for_chainStep (ids : Ids) {ev : Option Node} (hev : EvOK ev) :
    ChainStep ids ev (for_step ids ev) := by
  intro m last st ns cs last2 st2 cur hcur hstep
  cases hfn : create_for_node ids st with
  | mk fn st1 =>
    cases hb1 : for_bound (pyStrip (capD m 2)) 0 with
    | none => simp [for_step, hfn, hb1] at hstep
    | some sv =>
      cases hb2 : for_bound (pyStrip (capD m 4)) 10 with
      | none => simp [for_step, hfn, hb1, hb2] at hstep
      | some ev2 =>
        cases hsl : create_literal_node ids (.pint sv) "int" st1 with
        | mk sl st2' =>
          cases hel : create_literal_node ids (.pint ev2) "int" st2' with
          | mk el st3 =>
            cases hw : wire_from ids ev last fn st3 with
            | mk wc st4 =>
              cases hc1 : create_connection ids sl "output" fn "%firstIndex" false st4 with
              | mk c1 st5 =>
                cases hc2 : create_connection ids el "output" fn "%lastIndex" false st5 with
                | mk c2 st6 =>
                  simp only [for_step, hfn, hb1, hb2, hsl, hel, hw, hc1, hc2,
                    Option.some.injEq] at hstep
                  obtain ⟨rfl, rfl, rfl, rfl⟩ := hstep
                  have hctor : isCtor fn = true := by
                    have hp : fn = (create_for_node ids st).1 := by rw [hfn]
                    rw [hp]; exact isCtor_for ids st
                  have hsl0 : isCtor sl = false := by
                    have hp : sl = (create_literal_node ids (.pint sv) "int" st1).1 := by
                      rw [hsl]
                    rw [hp]; exact isCtor_literal ids _ _ st1
                  have hel0 : isCtor el = false := by
                    have hp : el = (create_literal_node ids (.pint ev2) "int" st2').1 := by
                      rw [hel]
                    rw [hp]; exact isCtor_literal ids _ _ st2'
                  have hc1f : isCtrlConn c1 = false := by
                    have hp : c1 = (create_connection ids sl "output" fn "%firstIndex" false st4).1 := by
                      rw [hc1]
                    rw [hp]; exact isCtrlConn_value ids sl "output" fn "%firstIndex" st4
                  have hc2f : isCtrlConn c2 = false := by
                    have hp : c2 = (create_connection ids el "output" fn "%lastIndex" false st5).1 := by
                      rw [hc2]
                    rw [hp]; exact isCtrlConn_value ids el "output" fn "%lastIndex" st5
                  exact chain_shape ids hev hcur hw hctor
                    (by simp [List.filter, hsl0, hel0])
                    (by rw [ctrlEdges_cons_val hc1f, ctrlEdges_cons_val hc2f]; rfl)

theorem debug_chainStep (ids : Ids) {ev : Option Node} (hev : EvOK ev) :
    ChainStep ids ev (debug_step ids ev) := by
  intro m last st ns cs last2 st2 cur hcur hstep
  cases hdn : create_invoke_node ids "Log" "UnityEngine.Debug"
      [("System.Object", "message")] none st with
  | mk dn st1 =>
    cases hw : wire_from ids ev last dn st1 with
    | mk wc stw =>
      have hctor : isCtor dn = true := by
        have hp : dn = (create_invoke_node ids "Log" "UnityEngine.Debug"
            [("System.Object", "message")] none st).1 := by rw [hdn]
        rw [hp]; exact isCtor_invoke ids _ _ _ _ st
      cases hq : startsWithQuote (pyStrip (capD m 1)) && endsWithQuote (pyStrip (capD m 1)) with
      | false =>
        simp only [debug_step, hdn, hw, hq, Bool.false_eq_true, if_false,
          Option.some.injEq] at hstep
        obtain ⟨rfl, rfl, rfl, rfl⟩ := hstep
        exact chain_shape ids hev hcur hw hctor
          (show ([] : List Node).filter isCtor = [] from rfl)
          (show ctrlEdges ([] : List Connection) = [] from rfl)
      | true =>
        cases hl : create_literal_node ids
            (.pstr (⟨((pyStrip (capD m 1)).drop 1).dropLast⟩ : String)) "string" stw with
        | mk lit st3 =>
          cases hcl : create_connection ids lit "output" dn "%message" false st3 with
          | mk cl st4 =>
            simp only [debug_step, hdn, hw, hq, if_true, hl, hcl,
              Option.some.injEq] at hstep
            obtain ⟨rfl, rfl, rfl, rfl⟩ := hstep
            have hl0 : isCtor lit = false := by
              have hp : lit = (create_literal_node ids
                  (.pstr (⟨((pyStrip (capD m 1)).drop 1).dropLast⟩ : String)) "string" stw).1 := by
                rw [hl]
              rw [hp]; exact isCtor_literal ids _ _ stw
            have hclf : isCtrlConn cl = false := by
              have hp : cl = (create_connection ids lit "output" dn "%message" false st3).1 := by
                rw [hcl]
              rw [hp]; exact isCtrlConn_value ids lit "output" dn "%message" st3
            exact chain_shape ids hev hcur hw hctor
              (by simp [List.filter, hl0])
              (by rw [ctrlEdges_cons_val hclf]; rfl)

theorem if_chainStep (ids : Ids) {ev : Option Node} (hev : EvOK ev) :
    ChainStep ids ev (if_step ids ev) := by
  intro m last st ns cs last2 st2 cur hcur hstep
  cases hin : create_if_node ids st with
  | mk ifn st1 =>
    cases hw : wire_from ids ev last ifn st1 with
    | mk wc stw =>
      have hctor : isCtor ifn = true := by
        have hp : ifn = (create_if_node ids st).1 := by rw [hin]
        rw [hp]; exact isCtor_if ids st
      cases hop : firstContained comparison_ops (pyStrip (capD m 1)) with
      | none =>
        simp only [if_step, hin, hw, hop, Option.some.injEq] at hstep
        obtain ⟨rfl, rfl, rfl, rfl⟩ := hstep
        exact chain_shape ids hev hcur hw hctor
          (show ([] : List Node).filter isCtor = [] from rfl)
          (show ctrlEdges ([] : List Connection) = [] from rfl)
      | some op =>
        cases hcn : create_comparison_node ids op stw with
        | mk cn st3 =>
          cases hcc : create_connection ids cn "result" ifn "%condition" false st3 with
          | mk cc st4 =>
            simp only [if_step, hin, hw, hop, hcn, hcc, Option.some.injEq] at hstep
            obtain ⟨rfl, rfl, rfl, rfl⟩ := hstep
            have hcn0 : isCtor cn = false := by
              have hp : cn = (create_comparison_node ids op stw).1 := by rw [hcn]
              rw [hp]; exact isCtor_comparison ids op stw
            have hccf : isCtrlConn cc = false := by
              have hp : cc = (create_connection ids cn "result" ifn "%condition" false st3).1 := by
                rw [hcc]
              rw [hp]; exact isCtrlConn_value ids cn "result" ifn "%condition" st3
            exact chain_shape ids hev hcur hw hctor
              (by simp [List.filter, hcn0])
              (by rw [ctrlEdges_cons_val hccf]; rfl)

theorem assign_chainStep (ids : Ids) {ev : Option Node} (hev : EvOK ev) :
    ChainStep ids ev (assign_step ids ev) := by
  intro m last st ns cs last2 st2 cur hcur hstep
  cases hsn : create_set_variable_node ids (⟨capD m 1⟩ : String) "System.Object" st with
  | mk svn st1 =>
    cases hw : wire_from ids ev last svn st1 with
    | mk wc stw =>
      have hctor : isCtor svn = true := by
        have hp : svn = (create_set_variable_node ids (⟨capD m 1⟩ : String)
            "System.Object" st).1 := by rw [hsn]
        rw [hp]; exact isCtor_setvar ids _ _ st
      cases hop : (if startsWithQuote (pyStrip (capD m 2)) then none
          else firstContained arithmetic_ops (pyStrip (capD m 2))) with
      | none =>
        simp only [assign_step, hsn, hw, hop, Option.some.injEq] at hstep
        obtain ⟨rfl, rfl, rfl, rfl⟩ := hstep
        exact chain_shape ids hev hcur hw hctor
          (show ([] : List Node).filter isCtor = [] from rfl)
          (show ctrlEdges ([] : List Connection) = [] from rfl)
      | some op =>
        cases han : create_arithmetic_node ids op stw with
        | mk an st3 =>
          cases hac : create_connection ids an "result" svn "%input" false st3 with
          | mk ac st4 =>
            simp only [assign_step, hsn, hw, hop, han, hac, Option.some.injEq] at hstep
            obtain ⟨rfl, rfl, rfl, rfl⟩ := hstep
            have han0 : isCtor an = false := by
              have hp : an = (create_arithmetic_node ids op stw).1 := by rw [han]
              rw [hp]; exact isCtor_arithmetic ids op stw
            have hacf : isCtrlConn ac = false := by
              have hp : ac = (create_connection ids an "result" svn "%input" false st3).1 := by
                rw [hac]
              rw [hp]; exact isCtrlConn_value ids an "result" svn "%input" st3
            exact chain_shape ids hev hcur hw hctor
              (by simp [List.filter, han0])
              (by rw [ctrlEdges_cons_val hacf]; rfl)

theorem yield_chainStep (ids : Ids) {ev : Option Node} (hev : EvOK ev) :
    ChainStep ids ev (yield_step ids ev) := by
  intro m last st ns cs last2 st2 cur hcur hstep
  cases hyn : create_yield_return_node ids st with
  | mk yn st1 =>
    cases hw : wire_from ids ev last yn st1 with
    | mk wc stw =>
      have hctor : isCtor yn = true := by
        have hp : yn = (create_yield_return_node ids st).1 := by rw [hyn]
        rw [hp]; exact isCtor_yieldnode ids st
      have hnil := chain_shape ids hev hcur hw hctor
        (show ([] : List Node).filter isCtor = [] from rfl)
        (show ctrlEdges ([] : List Connection) = [] from rfl)
      cases hcnd : capD m 1 == "WaitForSeconds".data &&
          (match capGet m.caps 2 with | some a => !a.isEmpty | none => false) with
      | false =>
        simp only [yield_step, hyn, hw, hcnd, Bool.false_eq_true, if_false,
          Option.some.injEq] at hstep
        obtain ⟨rfl, rfl, rfl, rfl⟩ := hstep
        exact hnil
      | true =>
        cases hfl : pyFloatAccepts (pyStrip ((capGet m.caps 2).getD [])) with
        | false =>
          simp only [yield_step, hyn, hw, hcnd, if_true, hfl, Bool.false_eq_true,
            if_false, Option.some.injEq] at hstep
          obtain ⟨rfl, rfl, rfl, rfl⟩ := hstep
          exact hnil
        | true =>
          cases hwn : create_wait_for_seconds_node ids
              (⟨pyStrip ((capGet m.caps 2).getD [])⟩ : String) stw with
          | mk wnode st3 =>
            cases hwc : create_connection ids wnode "result" yn "%instruction" false st3 with
            | mk wcn st4 =>
              simp only [yield_step, hyn, hw, hcnd, if_true, hfl, hwn, hwc,
                Option.some.injEq] at hstep
              obtain ⟨rfl, rfl, rfl, rfl⟩ := hstep
              have hwn0 : isCtor wnode = false := by
                have hp : wnode = (create_wait_for_seconds_node ids
                    (⟨pyStrip ((capGet m.caps 2).getD [])⟩ : String) stw).1 := by rw [hwn]
                rw [hp]; exact isCtor_wait ids _ stw
              have hwcf : isCtrlConn wcn = false := by
                have hp : wcn = (create_connection ids wnode "result" yn "%instruction" false st3).1 := by
                  rw [hwc]
                rw [hp]; exact isCtrlConn_value ids wnode "result" yn "%instruction" st3
              exact chain_shape ids hev hcur hw hctor
                (by simp [List.filter, hwn0])
                (by rw [ctrlEdges_cons_val hwcf]; rfl)

theorem call_chainStep (ids : Ids) {ev : Option Node} (hev : EvOK ev)
    (body : List Char) : ChainStep ids ev (call_step ids ev body) := by
  intro m last st ns cs last2 st2 cur hcur hstep
  cases hdl : capD m 1 == "Debug".data && capD m 2 == "Log".data with
  | true =>
    simp only [call_step, hdl, if_true, Option.some.injEq] at hstep
    obtain ⟨rfl, rfl, rfl, rfl⟩ := hstep
    exact chain_skip ids hcur
  | false =>
    cases hpc : containsSub ['=']
        (((splitOnChar '\n' ((body.take m.ms).drop (m.ms - 20))).getLast?).getD []) with
    | true =>
      simp only [call_step, hdl, Bool.false_eq_true, if_false, hpc, if_true,
        Option.some.injEq] at hstep
      obtain ⟨rfl, rfl, rfl, rfl⟩ := hstep
      exact chain_skip ids hcur
    | false =>
      cases hcn : create_custom_invoke_node ids (⟨capD m 2⟩ : String)
          (if STATIC_TARGETS.any (fun t => t.data == capD m 1) then
            "UnityEngine." ++ (⟨capD m 1⟩ : String) else (⟨capD m 1⟩ : String))
          ((List.range (if (pyStrip (capD m 3)).isEmpty then 0
            else ((splitOnChar ',' (pyStrip (capD m 3))).filter
              (fun a => !(pyStrip a).isEmpty)).length)).map
            (fun i => ("System.Object", "arg" ++ toString i)))
          (some "void") false st with
      | mk cn st1 =>
        cases hw : wire_from ids ev last cn st1 with
        | mk wc stw =>
          simp only [call_step, hdl, Bool.false_eq_true, if_false, hpc, hcn, hw,
            Option.some.injEq] at hstep
          obtain ⟨rfl, rfl, rfl, rfl⟩ := hstep
          have hctor : isCtor cn = true := by
            have hp : cn = (create_custom_invoke_node ids (⟨capD m 2⟩ : String)
                (if STATIC_TARGETS.any (fun t => t.data == capD m 1) then
                  "UnityEngine." ++ (⟨capD m 1⟩ : String) else (⟨capD m 1⟩ : String))
                ((List.range (if (pyStrip (capD m 3)).isEmpty then 0
                  else ((splitOnChar ',' (pyStrip (capD m 3))).filter
                    (fun a => !(pyStrip a).isEmpty)).length)).map
                  (fun i => ("System.Object", "arg" ++ toString i)))
                (some "void") false st).1 := by rw [hcn]
            rw [hp]; exact isCtor_custom ids _ _ _ _ _ st
          have h := chain_shape ids hev hcur hw hctor
            (show ([] : List Node).filter isCtor = [] from rfl)
            (show ctrlEdges ([] : List Connection) = [] from rfl)
          rw [List.append_nil] at h
          exact h

/-- The fold of a chain-respecting step is chain-respecting. -/
theorem foldCat_chain {ids : Ids} {ev : Option Node} {step : StepFn}
    (hstep : ChainStep ids ev step) :
    ∀ (ms : List RMatch) (last : Option Node) (st : GenState) ns cs last2 st2
      (cur : Option (String × String)),
      CursorOK ids ev last cur →
      foldCat step ms last st = some (ns, cs, last2, st2) →
      ctrlEdges cs = chainFrom cur ((ns.filter isCtor).map (node_id ids)) ∧
      CursorOK ids ev last2 (chainEnd cur ((ns.filter isCtor).map (node_id ids))) := by
  intro ms
  induction ms with
  | nil =>
    intro last st ns cs last2 st2 cur hcur hf
    simp only [foldCat, Option.some.injEq] at hf
    obtain ⟨rfl, rfl, rfl, rfl⟩ := hf
    have hz : (([] : List Node).filter isCtor).map (node_id ids) = [] := rfl
    rw [hz, chainFrom_nil, chainEnd_nil]
    exact ⟨rfl, hcur⟩
  | cons m ms ih =>
    intro last st ns cs last2 st2 cur hcur hf
    simp only [foldCat] at hf
    cases h1 : step m last st with
    | none => simp [h1] at hf
    | some out1 =>
      obtain ⟨ns1, cs1, lastm, stm⟩ := out1
      cases h2 : foldCat step ms lastm stm with
      | none => simp [h1, h2] at hf
      | some out2 =>
        obtain ⟨ns2, cs2, lastf, stf⟩ := out2
        simp only [h1, h2, Option.some.injEq] at hf
        obtain ⟨rfl, rfl, rfl, rfl⟩ := hf
        obtain ⟨he1, hc1⟩ := hstep m last st ns1 cs1 lastm stm cur hcur h1
        obtain ⟨he2, hc2⟩ := ih lastm stm ns2 cs2 last2 st2 _ hc1 h2
        constructor
        · rw [ctrlEdges_append, he1, he2, List.filter_append, List.map_append,
            chainFrom_append]
        · rw [List.filter_append, List.map_append, chainEnd_append]
          exact hc2

theorem attach_comment_none (c : List Char) (l : List Node) :
    attach_comment c none l = l := by
  unfold attach_comment
  split <;> rfl

/-- The comment attachment only ever rewrites the head node's description:
ports, guid, category and type of every node are untouched. -/
theorem attach_comment_cons (c : List Char) (evn : Node) (rest : List Node) :
    ∃ e0, attach_comment c (some evn) (evn :: rest) = e0 :: rest ∧
      e0.ports = evn.ports ∧ e0.guid = evn.guid ∧ e0.category = evn.category ∧
      e0.node_type = evn.node_type ∧ e0.default_values = evn.default_values := by
  unfold attach_comment
  split
  · exact ⟨{ evn with description := some (⟨c⟩ : String) }, rfl, rfl, rfl, rfl, rfl, rfl⟩
  · exact ⟨evn, rfl, rfl, rfl, rfl, rfl, rfl⟩

theorem isCtor_of_ports {n m : Node} (h : n.ports = m.ports) :
    isCtor n = isCtor m := by simp [isCtor, h]

theorem isForType_of_node_type {n m : Node} (h : n.node_type = m.node_type) :
    isForType n = isForType m := by simp [isForType, h]

theorem isIfType_of_node_type {n m : Node} (h : n.node_type = m.node_type) :
    isIfType n = isIfType m := by simp [isIfType, h]

theorem isIntLiteral_of_fields {n m : Node} (h : n.node_type = m.node_type)
    (h2 : n.default_values = m.default_values) :
    isIntLiteral n = isIntLiteral m := by simp [isIntLiteral, h, h2]

theorem filter_eq_nil_of_false {p : Node → Bool} {l : List Node}
    (h : ∀ n ∈ l, p n = false) : l.filter p = [] := by
  induction l with
  | nil => rfl
  | cons x xs ih =>
    rw [List.filter_cons, h x (List.mem_cons_self x xs)]
    simp only [Bool.false_eq_true, if_false]
    exact ih (fun n hn => h n (List.mem_cons_of_mem x hn))

theorem node_id_of_guid (ids : Ids) {n m : Node} (h : n.guid = m.guid) :
    node_id ids n = node_id ids m := by simp [node_id, h]

theorem chain_compose {cur : Option (String × String)}
    {cs1 cs2 : List Connection} {l1 l2 : List String}
    (h1 : ctrlEdges cs1 = chainFrom cur l1)
    (h2 : ctrlEdges cs2 = chainFrom (chainEnd cur l1) l2) :
    ctrlEdges (cs1 ++ cs2) = chainFrom cur (l1 ++ l2) := by
  rw [ctrlEdges_append, h1, h2, chainFrom_append]

set_option maxHeartbeats 2000000 in
/-- Inversion of a successful `process_method` run into its event prelude,
the nine per-category fold results, and the assembled outputs.  Shared by
the remaining structural lemmas so the heavy destructuring happens once. -/
theorem process_method_inv (ids : Ids) (method : MethodRec) (st : GenState)
    {ns : List Node} {cs : List Connection} {st2 : GenState}
    (h : process_method ids method st = some (ns, cs, st2)) :
    ∃ (evOpt : Option Node) (nodes0 : List Node) (st0 : GenState)
      (n1 n2 n3 n4 n5 n6 n7 n8 n9 : List Node)
      (c1 c2 c3 c4 c5 c6 c7 c8 c9 : List Connection)
      (l1 l2 l3 l4 l5 l6 l7 l8 l9 : Option Node)
      (s1 s2 s3 s4 s5 s6 s7 s8 : GenState),
      ((isUnityEvent method.mname = true ∧
        ∃ evn, create_event_node ids method.mname st = (evn, st0) ∧
          evOpt = some evn ∧ nodes0 = [evn]) ∨
       (isUnityEvent method.mname = false ∧ evOpt = none ∧ nodes0 = [] ∧ st0 = st)) ∧
      foldCat (for_step ids evOpt) (findIter forPat method.body) evOpt st0 =
        some (n1, c1, l1, s1) ∧
      foldCat (while_step ids evOpt) (findIter whilePat method.body) l1 s1 =
        some (n2, c2, l2, s2) ∧
      foldCat (foreach_step ids evOpt) (findIter foreachPat method.body) l2 s2 =
        some (n3, c3, l3, s3) ∧
      foldCat (switch_step ids evOpt method.body) (findIter switchPat method.body) l3 s3 =
        some (n4, c4, l4, s4) ∧
      foldCat (debug_step ids evOpt) (findIter debugLogPat method.body) l4 s4 =
        some (n5, c5, l5, s5) ∧
      foldCat (if_step ids evOpt) (findIter ifPat method.body) l5 s5 =
        some (n6, c6, l6, s6) ∧
      foldCat (assign_step ids evOpt) (findIter assignPat method.body) l6 s6 =
        some (n7, c7, l7, s7) ∧
      foldCat (yield_step ids evOpt) (findIter yieldPat method.body) l7 s7 =
        some (n8, c8, l8, s8) ∧
      foldCat (call_step ids evOpt method.body) (findIter methodCallPat method.body) l8 s8 =
        some (n9, c9, l9, st2) ∧
      ns = attach_comment method.comments evOpt
        (nodes0 ++ (n1 ++ (n2 ++ (n3 ++ (n4 ++ (n5 ++ (n6 ++ (n7 ++ (n8 ++ n9))))))))) ∧
      cs = c1 ++ (c2 ++ (c3 ++ (c4 ++ (c5 ++ (c6 ++ (c7 ++ (c8 ++ c9))))))) := by
  cases hev : isUnityEvent method.mname with
  | true =>
    cases hevn : create_event_node ids method.mname st with
    | mk evn st' =>
    simp only [process_method, hev, if_true, hevn] at h
    cases hf1 : foldCat (for_step ids (some evn)) (findIter forPat method.body) (some evn) st' with
    | none => rw [hf1] at h; simp at h
    | some o1 =>
    obtain ⟨n1, c1, l1, s1⟩ := o1
    rw [hf1] at h
    simp only [Option.bind_eq_bind, Option.some_bind] at h
    cases hf2 : foldCat (while_step ids (some evn)) (findIter whilePat method.body) l1 s1 with
    | none => rw [hf2] at h; simp at h
    | some o2 =>
    obtain ⟨n2, c2, l2, s2⟩ := o2
    rw [hf2] at h
    simp only [Option.bind_eq_bind, Option.some_bind] at h
    cases hf3 : foldCat (foreach_step ids (some evn)) (findIter foreachPat method.body) l2 s2 with
    | none => rw [hf3] at h; simp at h
    | some o3 =>
    obtain ⟨n3, c3, l3, s3⟩ := o3
    rw [hf3] at h
    simp only [Option.bind_eq_bind, Option.some_bind] at h
    cases hf4 : foldCat (switch_step ids (some evn) method.body) (findIter switchPat method.body) l3 s3 with
    | none => rw [hf4] at h; simp at h
    | some o4 =>
    obtain ⟨n4, c4, l4, s4⟩ := o4
    rw [hf4] at h
    simp only [Option.bind_eq_bind, Option.some_bind] at h
    cases hf5 : foldCat (debug_step ids (some evn)) (findIter debugLogPat method.body) l4 s4 with
    | none => rw [hf5] at h; simp at h
    | some o5 =>
    obtain ⟨n5, c5, l5, s5⟩ := o5
    rw [hf5] at h
    simp only [Option.bind_eq_bind, Option.some_bind] at h
    cases hf6 : foldCat (if_step ids (some evn)) (findIter ifPat method.body) l5 s5 with
    | none => rw [hf6] at h; simp at h
    | some o6 =>
    obtain ⟨n6, c6, l6, s6⟩ := o6
    rw [hf6] at h
    simp only [Option.bind_eq_bind, Option.some_bind] at h
    cases hf7 : foldCat (assign_step ids (some evn)) (findIter assignPat method.body) l6 s6 with
    | none => rw [hf7] at h; simp at h
    | some o7 =>
    obtain ⟨n7, c7, l7, s7⟩ := o7
    rw [hf7] at h
    simp only [Option.bind_eq_bind, Option.some_bind] at h
    cases hf8 : foldCat (yield_step ids (some evn)) (findIter yieldPat method.body) l7 s7 with
    | none => rw [hf8] at h; simp at h
    | some o8 =>
    obtain ⟨n8, c8, l8, s8⟩ := o8
    rw [hf8] at h
    simp only [Option.bind_eq_bind, Option.some_bind] at h
    cases hf9 : foldCat (call_step ids (some evn) method.body) (findIter methodCallPat method.body) l8 s8 with
    | none => rw [hf9] at h; simp at h
    | some o9 =>
    obtain ⟨n9, c9, l9, s9⟩ := o9
    rw [hf9] at h
    simp only [Option.bind_eq_bind, Option.some_bind, Option.pure_def,
      Option.some.injEq, Prod.mk.injEq] at h
    obtain ⟨hns, rfl, rfl⟩ := h
    refine ⟨some evn, [evn], st', n1, n2, n3, n4, n5, n6, n7, n8, n9,
      c1, c2, c3, c4, c5, c6, c7, c8, c9, l1, l2, l3, l4, l5, l6, l7, l8, l9,
      s1, s2, s3, s4, s5, s6, s7, s8,
      Or.inl ⟨rfl, evn, rfl, rfl, rfl⟩,
      hf1, hf2, hf3, hf4, hf5, hf6, hf7, hf8, hf9, ?_, rfl⟩
    rw [← hns, List.singleton_append]
  | false =>
    simp only [process_method, hev, Bool.false_eq_true, if_false] at h
    cases hf1 : foldCat (for_step ids none) (findIter forPat method.body) none st with
    | none => rw [hf1] at h; simp at h
    | some o1 =>
    obtain ⟨n1, c1, l1, s1⟩ := o1
    rw [hf1] at h
    simp only [Option.bind_eq_bind, Option.some_bind] at h
    cases hf2 : foldCat (while_step ids none) (findIter whilePat method.body) l1 s1 with
    | none => rw [hf2] at h; simp at h
    | some o2 =>
    obtain ⟨n2, c2, l2, s2⟩ := o2
    rw [hf2] at h
    simp only [Option.bind_eq_bind, Option.some_bind] at h
    cases hf3 : foldCat (foreach_step ids none) (findIter foreachPat method.body) l2 s2 with
    | none => rw [hf3] at h; simp at h
    | some o3 =>
    obtain ⟨n3, c3, l3, s3⟩ := o3
    rw [hf3] at h
    simp only [Option.bind_eq_bind, Option.some_bind] at h
    cases hf4 : foldCat (switch_step ids none method.body) (findIter switchPat method.body) l3 s3 with
    | none => rw [hf4] at h; simp at h
    | some o4 =>
    obtain ⟨n4, c4, l4, s4⟩ := o4
    rw [hf4] at h
    simp only [Option.bind_eq_bind, Option.some_bind] at h
    cases hf5 : foldCat (debug_step ids none) (findIter debugLogPat method.body) l4 s4 with
    | none => rw [hf5] at h; simp at h
    | some o5 =>
    obtain ⟨n5, c5, l5, s5⟩ := o5
    rw [hf5] at h
    simp only [Option.bind_eq_bind, Option.some_bind] at h
    cases hf6 : foldCat (if_step ids none) (findIter ifPat method.body) l5 s5 with
    | none => rw [hf6] at h; simp at h
    | some o6 =>
    obtain ⟨n6, c6, l6, s6⟩ := o6
    rw [hf6] at h
    simp only [Option.bind_eq_bind, Option.some_bind] at h
    cases hf7 : foldCat (assign_step ids none) (findIter assignPat method.body) l6 s6 with
    | none => rw [hf7] at h; simp at h
    | some o7 =>
    obtain ⟨n7, c7, l7, s7⟩ := o7
    rw [hf7] at h
    simp only [Option.bind_eq_bind, Option.some_bind] at h
    cases hf8 : foldCat (yield_step ids none) (findIter yieldPat method.body) l7 s7 with
    | none => rw [hf8] at h; simp at h
    | some o8 =>
    obtain ⟨n8, c8, l8, s8⟩ := o8
    rw [hf8] at h
    simp only [Option.bind_eq_bind, Option.some_bind] at h
    cases hf9 : foldCat (call_step ids none method.body) (findIter methodCallPat method.body) l8 s8 with
    | none => rw [hf9] at h; simp at h
    | some o9 =>
    obtain ⟨n9, c9, l9, s9⟩ := o9
    rw [hf9] at h
    simp only [Option.bind_eq_bind, Option.some_bind, Option.pure_def,
      Option.some.injEq, Prod.mk.injEq] at h
    obtain ⟨hns, rfl, rfl⟩ := h
    exact ⟨none, [], st, n1, n2, n3, n4, n5, n6, n7, n8, n9,
      c1, c2, c3, c4, c5, c6, c7, c8, c9, l1, l2, l3, l4, l5, l6, l7, l8, l9,
      s1, s2, s3, s4, s5, s6, s7, s8,
      Or.inr ⟨rfl, rfl, rfl, rfl⟩,
      hf1, hf2, hf3, hf4, hf5, hf6, hf7, hf8, hf9, by rw [← hns, List.nil_append], rfl⟩


/-- Master lemma, non-lifecycle case: with no event node there is no
initial cursor, so the control connections are exactly the chain that
starts only at the second construct. -/
theorem process_method_chain_plain (ids : Ids) (method : MethodRec) (st : GenState)
    {ns : List Node} {cs : List Connection} {st2 : GenState}
    (hne : isUnityEvent method.mname = false)
    (h : process_method ids method st = some (ns, cs, st2)) :
    ctrlEdges cs = chainFrom none ((ns.filter isCtor).map (node_id ids)) := by
  obtain ⟨evOpt, nodes0, st0, n1, n2, n3, n4, n5, n6, n7, n8, n9,
    c1, c2, c3, c4, c5, c6, c7, c8, c9, l1, l2, l3, l4, l5, l6, l7, l8, l9,
    s1, s2, s3, s4, s5, s6, s7, s8,
    hcase, hf1, hf2, hf3, hf4, hf5, hf6, hf7, hf8, hf9, hns, hcs⟩ :=
    process_method_inv ids method st h
  rcases hcase with ⟨htrue, _⟩ | ⟨_, rfl, rfl, rfl⟩
  · rw [hne] at htrue; exact absurd htrue (by simp)
  · have hEv : EvOK none := by intro e he; exact Option.noConfusion he
    have hcur0 : CursorOK ids none none none := rfl
    obtain ⟨E1, K1⟩ := foldCat_chain (for_chainStep ids hEv) _ _ _ _ _ _ _ _ hcur0 hf1
    obtain ⟨E2, K2⟩ := foldCat_chain (while_chainStep ids hEv) _ _ _ _ _ _ _ _ K1 hf2
    obtain ⟨E3, K3⟩ := foldCat_chain (foreach_chainStep ids hEv) _ _ _ _ _ _ _ _ K2 hf3
    obtain ⟨E4, K4⟩ := foldCat_chain (switch_chainStep ids hEv method.body) _ _ _ _ _ _ _ _ K3 hf4
    obtain ⟨E5, K5⟩ := foldCat_chain (debug_chainStep ids hEv) _ _ _ _ _ _ _ _ K4 hf5
    obtain ⟨E6, K6⟩ := foldCat_chain (if_chainStep ids hEv) _ _ _ _ _ _ _ _ K5 hf6
    obtain ⟨E7, K7⟩ := foldCat_chain (assign_chainStep ids hEv) _ _ _ _ _ _ _ _ K6 hf7
    obtain ⟨E8, K8⟩ := foldCat_chain (yield_chainStep ids hEv) _ _ _ _ _ _ _ _ K7 hf8
    obtain ⟨E9, _⟩ := foldCat_chain (call_chainStep ids hEv method.body) _ _ _ _ _ _ _ _ K8 hf9
    rw [hns, hcs, attach_comment_none]
    simp only [List.nil_append, List.filter_append, List.map_append]
    exact chain_compose E1 (chain_compose E2 (chain_compose E3 (chain_compose E4
      (chain_compose E5 (chain_compose E6 (chain_compose E7 (chain_compose E8 E9)))))))

theorem event_category (ids : Ids) (nm : List Char) (st : GenState) :
    (create_event_node ids nm st).1.category = NodeCat.event := rfl

theorem event_node_type (ids : Ids) (nm : List Char) (st : GenState) :
    (create_event_node ids nm st).1.node_type =
      (lookupEvent nm).getD "Unity.VisualScripting.Start" := rfl

/-- Master lemma, lifecycle case: the emitted node list starts with the
event node (whose guid carries over into the chain even after the comment
attachment rewrites its description), the event node is not a construct,
and the control connections are exactly the cursor chain seeded by the
event node's `trigger` output. -/
theorem process_method_chain_event (ids : Ids) (method : MethodRec) (st : GenState)
    {ns : List Node} {cs : List Connection} {st2 : GenState}
    (he : isUnityEvent method.mname = true)
    (h : process_method ids method st = some (ns, cs, st2)) :
    ∃ e0 rest, ns = e0 :: rest ∧ e0.category = NodeCat.event ∧ isCtor e0 = false ∧
      e0.node_type = (lookupEvent method.mname).getD "Unity.VisualScripting.Start" ∧
      ctrlEdges cs = chainFrom (some (node_id ids e0, "trigger"))
        ((ns.filter isCtor).map (node_id ids)) := by
  obtain ⟨evOpt, nodes0, st0, n1, n2, n3, n4, n5, n6, n7, n8, n9,
    c1, c2, c3, c4, c5, c6, c7, c8, c9, l1, l2, l3, l4, l5, l6, l7, l8, l9,
    s1, s2, s3, s4, s5, s6, s7, s8,
    hcase, hf1, hf2, hf3, hf4, hf5, hf6, hf7, hf8, hf9, hns, hcs⟩ :=
    process_method_inv ids method st h
  rcases hcase with ⟨_, evn, hevn, rfl, rfl⟩ | ⟨hfalse, _⟩
  · have hevn1 : evn = (create_event_node ids method.mname st).1 := by rw [hevn]
    have hev0 : isCtor evn = false := by
      rw [hevn1]; exact isCtor_event ids method.mname st
    have hEv : EvOK (some evn) := by
      intro e he2
      injection he2 with he3
      rw [← he3]; exact hev0
    have hcur0 : CursorOK ids (some evn) (some evn)
        (some (node_id ids evn, "trigger")) := by
      show _ = _
      simp [wire_key]
    obtain ⟨E1, K1⟩ := foldCat_chain (for_chainStep ids hEv) _ _ _ _ _ _ _ _ hcur0 hf1
    obtain ⟨E2, K2⟩ := foldCat_chain (while_chainStep ids hEv) _ _ _ _ _ _ _ _ K1 hf2
    obtain ⟨E3, K3⟩ := foldCat_chain (foreach_chainStep ids hEv) _ _ _ _ _ _ _ _ K2 hf3
    obtain ⟨E4, K4⟩ := foldCat_chain (switch_chainStep ids hEv method.body) _ _ _ _ _ _ _ _ K3 hf4
    obtain ⟨E5, K5⟩ := foldCat_chain (debug_chainStep ids hEv) _ _ _ _ _ _ _ _ K4 hf5
    obtain ⟨E6, K6⟩ := foldCat_chain (if_chainStep ids hEv) _ _ _ _ _ _ _ _ K5 hf6
    obtain ⟨E7, K7⟩ := foldCat_chain (assign_chainStep ids hEv) _ _ _ _ _ _ _ _ K6 hf7
    obtain ⟨E8, K8⟩ := foldCat_chain (yield_chainStep ids hEv) _ _ _ _ _ _ _ _ K7 hf8
    obtain ⟨E9, _⟩ := foldCat_chain (call_chainStep ids hEv method.body) _ _ _ _ _ _ _ _ K8 hf9
    have hall := chain_compose E1 (chain_compose E2 (chain_compose E3 (chain_compose E4
      (chain_compose E5 (chain_compose E6 (chain_compose E7 (chain_compose E8 E9)))))))
    rw [List.singleton_append] at hns
    obtain ⟨e0, hat, hports, hguid, hcat, htype, -⟩ :=
      attach_comment_cons method.comments evn
        (n1 ++ (n2 ++ (n3 ++ (n4 ++ (n5 ++ (n6 ++ (n7 ++ (n8 ++ n9))))))))
    rw [hat] at hns
    refine ⟨e0, _, hns, ?_, ?_, ?_, ?_⟩
    · rw [hcat, hevn1]; exact event_category ids method.mname st
    · rw [isCtor_of_ports hports]; exact hev0
    · rw [htype, hevn1]; exact event_node_type ids method.mname st
    · rw [hns, hcs]
      have hfe : isCtor e0 = false := by rw [isCtor_of_ports hports]; exact hev0
      rw [node_id_of_guid ids hguid]
      simp only [List.filter_cons, hfe, Bool.false_eq_true, if_false,
        List.filter_append, List.map_append]
      exact hall
  · rw [he] at hfalse; exact absurd hfalse (by simp)

theorem chainFrom_some_dst (l : List String) :
    ∀ pk : String × String, (chainFrom (some pk) l).map (fun e => e.dst) = l := by
  induction l with
  | nil => intro pk; rfl
  | cons x xs ih => intro pk; simp [chainFrom, ih]

theorem pm_eq (ids : Ids) (method : MethodRec) (st : GenState)
    {ns : List Node} {cs : List Connection} {st2 : GenState}
    (h : process_method ids method st = some (ns, cs, st2)) :
    pmNodes ids method st = ns ∧ pmConns ids method st = cs := by
  constructor <;> simp [pmNodes, pmConns, pmOut, h]

/-- C1: within one method's translation, when an event node exists, the
first emitted construct's `enter` port is wired from the event node's
`trigger` output, every later construct's `enter` port is wired from the
previously emitted construct with source key `exit`, and the cursor always
advances to the construct just emitted — i.e. the method's control
connections are exactly the cursor chain seeded at the event node's
`trigger`, threaded through the construct nodes in emission order. -/
theorem C1_control_cursor_wiring (ids : Ids) (method : MethodRec) (st : GenState)
    (he : isUnityEvent method.mname = true)
    (hs : (process_method ids method st).isSome = true) :
    ∃ e0 rest, pmNodes ids method st = e0 :: rest ∧
      e0.category = NodeCat.event ∧ isCtor e0 = false ∧
      ctrlEdges (pmConns ids method st) =
        chainFrom (some (node_id ids e0, "trigger"))
          (((pmNodes ids method st).filter isCtor).map (node_id ids)) := by
  cases h : process_method ids method st with
  | none => rw [h] at hs; simp at hs
  | some out =>
    obtain ⟨ns, cs, st2⟩ := out
    obtain ⟨hn, hc⟩ := pm_eq ids method st h
    rw [hn, hc]
    obtain ⟨e0, rest, h1, h2, h3, _, h5⟩ :=
      process_method_chain_event ids method st he h
    exact ⟨e0, rest, h1, h2, h3, h5⟩

/-- A concrete, kernel-computable identity source for witnesses: guids are
decimal numerals and the hash reads them back. -/
def ids0 : Ids := { g := fun n => toString n, h := fun s => digitsToNat s.data }

def mC1 : MethodRec :=
  { mname := "Update".data, body := "if (x > 3) y = 1;".data, comments := [] }

/-- Witness for C1 at a concrete lifecycle method with two constructs. -/
theorem C1_control_cursor_wiring_witness :
    ∃ e0 rest, pmNodes ids0 mC1 initState = e0 :: rest ∧
      e0.category = NodeCat.event ∧ isCtor e0 = false ∧
      ctrlEdges (pmConns ids0 mC1 initState) =
        chainFrom (some (node_id ids0 e0, "trigger"))
          (((pmNodes ids0 mC1 initState).filter isCtor).map (node_id ids0)) :=
  C1_control_cursor_wiring ids0 mC1 initState (by decide) (by decide)

/-- C10: for a method whose name is not in the lifecycle-event catalog, no
event node exists, so the first construct emitted from its body receives no
incoming control connection at all, while every later construct is still
chained to its predecessor by an exit-to-enter control connection (the
control connections are exactly the cursor chain started with no seed). -/
theorem C10_first_construct_unwired_without_event (ids : Ids) (method : MethodRec)
    (st : GenState)
    (hne : isUnityEvent method.mname = false)
    (hs : (process_method ids method st).isSome = true)
    (hinj : (((pmNodes ids method st).filter isCtor).map (node_id ids)).Nodup) :
    ctrlEdges (pmConns ids method st) =
      chainFrom none (((pmNodes ids method st).filter isCtor).map (node_id ids)) ∧
    ∀ c0 crest, (pmNodes ids method st).filter isCtor = c0 :: crest →
      (∀ c ∈ pmConns ids method st, isCtrlConn c = true →
        c.destination_unit_id ≠ node_id ids c0) ∧
      ctrlEdges (pmConns ids method st) =
        chainFrom (some (node_id ids c0, "exit")) (crest.map (node_id ids)) := by
  cases h : process_method ids method st with
  | none => rw [h] at hs; simp at hs
  | some out =>
    obtain ⟨ns, cs, st2⟩ := out
    obtain ⟨hn, hc⟩ := pm_eq ids method st h
    rw [hn, hc]
    rw [hn] at hinj
    have hchain := process_method_chain_plain ids method st hne h
    refine ⟨hchain, ?_⟩
    intro c0 crest hfc
    rw [hfc] at hchain
    rw [hfc] at hinj
    simp only [List.map_cons] at hchain hinj
    have hchain2 : ctrlEdges cs =
        chainFrom (some (node_id ids c0, "exit")) (crest.map (node_id ids)) := hchain
    refine ⟨?_, hchain2⟩
    intro c hmem hctl hdst
    have hedge : edgeOf c ∈ ctrlEdges cs := by
      simp only [ctrlEdges, List.mem_filterMap]
      exact ⟨c, hmem, by rw [hctl]; rfl⟩
    rw [hchain2] at hedge
    have hdst2 : (edgeOf c).dst ∈ crest.map (node_id ids) := by
      rw [← chainFrom_some_dst (crest.map (node_id ids)) (node_id ids c0, "exit")]
      exact List.mem_map_of_mem _ hedge
    have : (edgeOf c).dst = node_id ids c0 := hdst
    rw [this] at hdst2
    exact (List.nodup_cons.mp hinj).1 hdst2

def mC10 : MethodRec :=
  { mname := "Foo".data, body := "y = 1; z = 2;".data, comments := [] }

/-- Witness for C10 at a concrete non-lifecycle method with two constructs. -/
theorem C10_first_construct_unwired_without_event_witness :
    ctrlEdges (pmConns ids0 mC10 initState) =
      chainFrom none (((pmNodes ids0 mC10 initState).filter isCtor).map (node_id ids0)) ∧
    ∀ c0 crest, (pmNodes ids0 mC10 initState).filter isCtor = c0 :: crest →
      (∀ c ∈ pmConns ids0 mC10 initState, isCtrlConn c = true →
        c.destination_unit_id ≠ node_id ids0 c0) ∧
      ctrlEdges (pmConns ids0 mC10 initState) =
        chainFrom (some (node_id ids0 c0, "exit")) (crest.map (node_id ids0)) :=
  C10_first_construct_unwired_without_event ids0 mC10 initState
    (by decide) (by decide) (by decide)

/-! ## Node-inventory lemmas: which node types each category can emit -/

def StepNodesP (P : Node → Prop) (step : StepFn) : Prop :=
  ∀ m last st ns cs last2 st2, step m last st = some (ns, cs, last2, st2) →
    ∀ n ∈ ns, P n

theorem foldCat_nodesP {P : Node → Prop} {step : StepFn} (hstep : StepNodesP P step) :
    ∀ (ms : List RMatch) (last : Option Node) (st : GenState) ns cs last2 st2,
      foldCat step ms last st = some (ns, cs, last2, st2) → ∀ n ∈ ns, P n := by
  intro ms
  induction ms with
  | nil =>
    intro last st ns cs last2 st2 hf
    simp only [foldCat, Option.some.injEq] at hf
    obtain ⟨rfl, rfl, rfl, rfl⟩ := hf
    intro n hn
    exact absurd hn (List.not_mem_nil n)
  | cons m ms ih =>
    intro last st ns cs last2 st2 hf
    simp only [foldCat] at hf
    cases h1 : step m last st with
    | none => simp [h1] at hf
    | some out1 =>
      obtain ⟨ns1, cs1, lastm, stm⟩ := out1
      cases h2 : foldCat step ms lastm stm with
      | none => simp [h1, h2] at hf
      | some out2 =>
        obtain ⟨ns2, cs2, lastf, stf⟩ := out2
        simp only [h1, h2, Option.some.injEq] at hf
        obtain ⟨rfl, rfl, rfl, rfl⟩ := hf
        intro n hn
        rcases List.mem_append.mp hn with hmem | hmem
        · exact hstep m last st ns1 cs1 lastm stm h1 n hmem
        · exact ih lastm stm ns2 cs2 last2 st2 h2 n hmem

/-- The inventory predicate for every category except for-loops and
conditionals: none of their nodes is a `For` node, an `If` node, or an
integer literal. -/
def NotFIL (n : Node) : Prop :=
  isForType n = false ∧ isIntLiteral n = false ∧ isIfType n = false

theorem while_nodesP (ids : Ids) (ev : Option Node) :
    StepNodesP NotFIL (while_step ids ev) := by
  intro m last st ns cs last2 st2 h
  simp only [while_step, Option.some.injEq, Prod.mk.injEq] at h
  obtain ⟨rfl, -⟩ := h
  intro n hn
  rw [List.mem_singleton.mp hn]
  exact ⟨rfl, rfl, rfl⟩

theorem foreach_nodesP (ids : Ids) (ev : Option Node) :
    StepNodesP NotFIL (foreach_step ids ev) := by
  intro m last st ns cs last2 st2 h
  simp only [foreach_step, Option.some.injEq, Prod.mk.injEq] at h
  obtain ⟨rfl, -⟩ := h
  intro n hn
  rw [List.mem_singleton.mp hn]
  exact ⟨rfl, rfl, rfl⟩

theorem switch_nodesP (ids : Ids) (ev : Option Node) (body : List Char) :
    StepNodesP NotFIL (switch_step ids ev body) := by
  intro m last st ns cs last2 st2 h
  simp only [switch_step, Option.some.injEq, Prod.mk.injEq] at h
  obtain ⟨rfl, -⟩ := h
  intro n hn
  rw [List.mem_singleton.mp hn]
  exact ⟨rfl, rfl, rfl⟩

theorem notFIL_arithmetic (ids : Ids) (op : String) (st : GenState) :
    NotFIL (create_arithmetic_node ids op st).1 := by
  have hmem : ∀ q ∈ ARITH_MAP, (q.2 == "Unity.VisualScripting.For") = false ∧
      (q.2 == "Unity.VisualScripting.Literal") = false ∧
      (q.2 == "Unity.VisualScripting.If") = false := by decide
  cases hf : ARITH_MAP.find? (fun p => p.1 == op) with
  | none =>
    refine ⟨?_, ?_, ?_⟩ <;>
      simp [create_arithmetic_node, isForType, isIntLiteral, isIfType, hf]
  | some p =>
    obtain ⟨h1, h2, h3⟩ := hmem p (List.mem_of_find?_eq_some hf)
    refine ⟨?_, ?_, ?_⟩ <;>
      simp [create_arithmetic_node, isForType, isIntLiteral, isIfType, hf, h1, h2, h3]

theorem notFIL_comparison (ids : Ids) (op : String) (st : GenState) :
    NotFIL (create_comparison_node ids op st).1 := by
  have hmem : ∀ q ∈ COMPARE_MAP, (q.2 == "Unity.VisualScripting.For") = false ∧
      (q.2 == "Unity.VisualScripting.Literal") = false ∧
      (q.2 == "Unity.VisualScripting.If") = false := by decide
  cases hf : COMPARE_MAP.find? (fun p => p.1 == op) with
  | none =>
    refine ⟨?_, ?_, ?_⟩ <;>
      simp [create_comparison_node, isForType, isIntLiteral, isIfType, hf]
  | some p =>
    obtain ⟨h1, h2, h3⟩ := hmem p (List.mem_of_find?_eq_some hf)
    refine ⟨?_, ?_, ?_⟩ <;>
      simp [create_comparison_node, isForType, isIntLiteral, isIfType, hf, h1, h2, h3]

theorem notFIL_event_node (ids : Ids) (nm : List Char) (st : GenState) :
    NotFIL (create_event_node ids nm st).1 := by
  have hmem : ∀ q ∈ UNITY_EVENTS, (q.2 == "Unity.VisualScripting.For") = false ∧
      (q.2 == "Unity.VisualScripting.Literal") = false ∧
      (q.2 == "Unity.VisualScripting.If") = false := by decide
  cases hf : UNITY_EVENTS.find? (fun p => p.1.data == nm) with
  | none =>
    refine ⟨?_, ?_, ?_⟩ <;>
      simp [create_event_node, lookupEvent, isForType, isIntLiteral, isIfType, hf]
  | some p =>
    obtain ⟨h1, h2, h3⟩ := hmem p (List.mem_of_find?_eq_some hf)
    refine ⟨?_, ?_, ?_⟩ <;>
      simp [create_event_node, lookupEvent, isForType, isIntLiteral, isIfType, hf,
        h1, h2, h3]

theorem debug_nodesP (ids : Ids) (ev : Option Node) :
    StepNodesP NotFIL (debug_step ids ev) := by
  intro m last st ns cs last2 st2 h
  simp only [debug_step] at h
  split at h
  · simp only [Option.some.injEq, Prod.mk.injEq] at h
    obtain ⟨rfl, -⟩ := h
    intro n hn
    rcases List.mem_cons.mp hn with rfl | hn2
    · exact ⟨rfl, rfl, rfl⟩
    · rw [List.mem_singleton.mp hn2]
      exact ⟨rfl, rfl, rfl⟩
  · simp only [Option.some.injEq, Prod.mk.injEq] at h
    obtain ⟨rfl, -⟩ := h
    intro n hn
    rw [List.mem_singleton.mp hn]
    exact ⟨rfl, rfl, rfl⟩

theorem assign_nodesP (ids : Ids) (ev : Option Node) :
    StepNodesP NotFIL (assign_step ids ev) := by
  intro m last st ns cs last2 st2 h
  simp only [assign_step] at h
  split at h
  · simp only [Option.some.injEq, Prod.mk.injEq] at h
    obtain ⟨rfl, -⟩ := h
    intro n hn
    rcases List.mem_cons.mp hn with rfl | hn2
    · exact ⟨rfl, rfl, rfl⟩
    · rw [List.mem_singleton.mp hn2]
      exact notFIL_arithmetic ids _ _
  · simp only [Option.some.injEq, Prod.mk.injEq] at h
    obtain ⟨rfl, -⟩ := h
    intro n hn
    rw [List.mem_singleton.mp hn]
    exact ⟨rfl, rfl, rfl⟩

theorem yield_nodesP (ids : Ids) (ev : Option Node) :
    StepNodesP NotFIL (yield_step ids ev) := by
  intro m last st ns cs last2 st2 h
  simp only [yield_step] at h
  split at h
  · split at h
    · simp only [Option.some.injEq, Prod.mk.injEq] at h
      obtain ⟨rfl, -⟩ := h
      intro n hn
      rcases List.mem_cons.mp hn with rfl | hn2
      · exact ⟨rfl, rfl, rfl⟩
      · rw [List.mem_singleton.mp hn2]
        exact ⟨rfl, rfl, rfl⟩
    · simp only [Option.some.injEq, Prod.mk.injEq] at h
      obtain ⟨rfl, -⟩ := h
      intro n hn
      rw [List.mem_singleton.mp hn]
      exact ⟨rfl, rfl, rfl⟩
  · simp only [Option.some.injEq, Prod.mk.injEq] at h
    obtain ⟨rfl, -⟩ := h
    intro n hn
    rw [List.mem_singleton.mp hn]
    exact ⟨rfl, rfl, rfl⟩

theorem call_nodesP (ids : Ids) (ev : Option Node) (body : List Char) :
    StepNodesP NotFIL (call_step ids ev body) := by
  intro m last st ns cs last2 st2 h
  simp only [call_step] at h
  split at h
  · simp only [Option.some.injEq, Prod.mk.injEq] at h
    obtain ⟨rfl, -⟩ := h
    intro n hn
    exact absurd hn (List.not_mem_nil n)
  · split at h
    · simp only [Option.some.injEq, Prod.mk.injEq] at h
      obtain ⟨rfl, -⟩ := h
      intro n hn
      exact absurd hn (List.not_mem_nil n)
    · simp only [Option.some.injEq, Prod.mk.injEq] at h
      obtain ⟨rfl, -⟩ := h
      intro n hn
      rw [List.mem_singleton.mp hn]
      exact ⟨rfl, rfl, rfl⟩

/-- The if-statement category never emits a `For` node or an integer
literal (its nodes are the branch node and possibly a comparison node). -/
theorem if_nodesP (ids : Ids) (ev : Option Node) :
    StepNodesP (fun n => isForType n = false ∧ isIntLiteral n = false)
      (if_step ids ev) := by
  intro m last st ns cs last2 st2 h
  simp only [if_step] at h
  split at h
  · simp only [Option.some.injEq, Prod.mk.injEq] at h
    obtain ⟨rfl, -⟩ := h
    intro n hn
    rcases List.mem_cons.mp hn with rfl | hn2
    · exact ⟨rfl, rfl⟩
    · rw [List.mem_singleton.mp hn2]
      obtain ⟨h1, h2, _⟩ := notFIL_comparison ids _ _
      exact ⟨h1, h2⟩
  · simp only [Option.some.injEq, Prod.mk.injEq] at h
    obtain ⟨rfl, -⟩ := h
    intro n hn
    rw [List.mem_singleton.mp hn]
    exact ⟨rfl, rfl⟩

/-- The for-loop category never emits an `If` node (its nodes are the loop
node and two literals). -/
theorem for_nodesP (ids : Ids) (ev : Option Node) :
    StepNodesP (fun n => isIfType n = false) (for_step ids ev) := by
  intro m last st ns cs last2 st2 h
  cases hb1 : for_bound (pyStrip (capD m 2)) 0 with
  | none => simp [for_step, hb1] at h
  | some sv =>
    cases hb2 : for_bound (pyStrip (capD m 4)) 10 with
    | none => simp [for_step, hb1, hb2] at h
    | some ev2 =>
      simp only [for_step, hb1, hb2, Option.some.injEq, Prod.mk.injEq] at h
      obtain ⟨rfl, -⟩ := h
      intro n hn
      rcases List.mem_cons.mp hn with rfl | hn2
      · rfl
      · rcases List.mem_cons.mp hn2 with rfl | hn3
        · rfl
        · rw [List.mem_singleton.mp hn3]
          rfl

theorem isForType_for (ids : Ids) (st : GenState) :
    isForType (create_for_node ids st).1 = true := rfl

theorem isForType_literal (ids : Ids) (v : PyVal) (t : String) (st : GenState) :
    isForType (create_literal_node ids v t st).1 = false := rfl

theorem isIntLiteral_for (ids : Ids) (st : GenState) :
    isIntLiteral (create_for_node ids st).1 = false := rfl

theorem isIntLiteral_int_literal (ids : Ids) (v : PyVal) (st : GenState) :
    isIntLiteral (create_literal_node ids v "int" st).1 = true := rfl

theorem litVal_literal (ids : Ids) (v : PyVal) (t : String) (st : GenState) :
    litVal (create_literal_node ids v t st).1 = some v := rfl

theorem conn_fields (ids : Ids) (a : Node) (k : String) (b : Node) (k2 : String)
    (ic : Bool) (st : GenState) :
    (create_connection ids a k b k2 ic st).1.source_unit_id = node_id ids a ∧
    (create_connection ids a k b k2 ic st).1.source_key = k ∧
    (create_connection ids a k b k2 ic st).1.destination_unit_id = node_id ids b ∧
    (create_connection ids a k b k2 ic st).1.destination_key = k2 :=
  ⟨rfl, rfl, rfl, rfl⟩

set_option maxHeartbeats 1000000 in
/-- C3: a method body whose single for-loop match captures the literal
bounds `0` and `5` yields exactly one `For` node and exactly two integer
literal nodes holding `0` and `5`, with value connections from the start
literal's `output` into the loop's `%firstIndex` input and from the end
literal's `output` into the loop's `%lastIndex` input; and a captured bound
that is not a plain integer literal falls back to the defaults 0 (start)
and 10 (end). -/
theorem C3_for_bound_literals (ids : Ids) (method : MethodRec) (st : GenState)
    (hm : (findIter forPat method.body).map
        (fun m => (pyStrip (capD m 2), pyStrip (capD m 4))) = [("0".data, "5".data)])
    (hs : (process_method ids method st).isSome = true) :
    ∃ fn sl el, (pmNodes ids method st).filter isForType = [fn] ∧
      (pmNodes ids method st).filter isIntLiteral = [sl, el] ∧
      litVal sl = some (.pint 0) ∧ litVal el = some (.pint 5) ∧
      (∃ c ∈ pmConns ids method st, isCtrlConn c = false ∧
        c.source_unit_id = node_id ids sl ∧ c.source_key = "output" ∧
        c.destination_unit_id = node_id ids fn ∧ c.destination_key = "%firstIndex") ∧
      (∃ c ∈ pmConns ids method st, isCtrlConn c = false ∧
        c.source_unit_id = node_id ids el ∧ c.source_key = "output" ∧
        c.destination_unit_id = node_id ids fn ∧ c.destination_key = "%lastIndex") ∧
      (∀ v : List Char, pyStrIsDigit v = false →
        for_bound v 0 = some 0 ∧ for_bound v 10 = some 10) := by
  cases h : process_method ids method st with
  | none => rw [h] at hs; simp at hs
  | some out =>
  obtain ⟨ns, cs, st2⟩ := out
  obtain ⟨hpn, hpc⟩ := pm_eq ids method st h
  rw [hpn, hpc]
  obtain ⟨evOpt, nodes0, st0, n1, n2, n3, n4, n5, n6, n7, n8, n9,
    c1, c2, c3, c4, c5, c6, c7, c8, c9, l1, l2, l3, l4, l5, l6, l7, l8, l9,
    s1, s2, s3, s4, s5, s6, s7, s8,
    hcase, hf1, hf2, hf3, hf4, hf5, hf6, hf7, hf8, hf9, hns, hcs⟩ :=
    process_method_inv ids method st h
  cases hfi : findIter forPat method.body with
  | nil => rw [hfi] at hm; exact absurd hm (by simp)
  | cons m0 rest =>
  cases rest with
  | cons m1 r2 => rw [hfi] at hm; exact absurd hm (by simp)
  | nil =>
  rw [hfi] at hm
  have hpair : (pyStrip (capD m0 2), pyStrip (capD m0 4)) = ("0".data, "5".data) := by
    have hh := congrArg (fun l => l.headD (([] : List Char), ([] : List Char))) hm
    simpa using hh
  have hc2 : pyStrip (capD m0 2) = "0".data := congrArg Prod.fst hpair
  have hc4 : pyStrip (capD m0 4) = "5".data := congrArg Prod.snd hpair
  have hb2 : for_bound (pyStrip (capD m0 2)) 0 = some 0 := by
    rw [hc2]; decide
  have hb4 : for_bound (pyStrip (capD m0 4)) 10 = some 5 := by
    rw [hc4]; decide
  rw [hfi] at hf1
  simp only [foldCat, for_step, hb2, hb4, Option.some.injEq, Prod.mk.injEq] at hf1
  obtain ⟨hn1, hc1, -, -⟩ := hf1
  rw [List.append_nil] at hn1
  rw [List.append_nil] at hc1
  refine ⟨(create_for_node ids st0).1,
    (create_literal_node ids (.pint 0) "int" (create_for_node ids st0).2).1,
    (create_literal_node ids (.pint 5) "int"
      (create_literal_node ids (.pint 0) "int" (create_for_node ids st0).2).2).1,
    ?_, ?_, litVal_literal ids _ _ _, litVal_literal ids _ _ _, ?_, ?_, ?_⟩
  · -- exactly one For node
    have hF2 : n2.filter isForType = [] := filter_eq_nil_of_false
      (fun n hn => (foldCat_nodesP (while_nodesP ids evOpt) _ _ _ _ _ _ _ hf2 n hn).1)
    have hF3 : n3.filter isForType = [] := filter_eq_nil_of_false
      (fun n hn => (foldCat_nodesP (foreach_nodesP ids evOpt) _ _ _ _ _ _ _ hf3 n hn).1)
    have hF4 : n4.filter isForType = [] := filter_eq_nil_of_false
      (fun n hn => (foldCat_nodesP (switch_nodesP ids evOpt method.body) _ _ _ _ _ _ _ hf4 n hn).1)
    have hF5 : n5.filter isForType = [] := filter_eq_nil_of_false
      (fun n hn => (foldCat_nodesP (debug_nodesP ids evOpt) _ _ _ _ _ _ _ hf5 n hn).1)
    have hF6 : n6.filter isForType = [] := filter_eq_nil_of_false
      (fun n hn => (foldCat_nodesP (if_nodesP ids evOpt) _ _ _ _ _ _ _ hf6 n hn).1)
    have hF7 : n7.filter isForType = [] := filter_eq_nil_of_false
      (fun n hn => (foldCat_nodesP (assign_nodesP ids evOpt) _ _ _ _ _ _ _ hf7 n hn).1)
    have hF8 : n8.filter isForType = [] := filter_eq_nil_of_false
      (fun n hn => (foldCat_nodesP (yield_nodesP ids evOpt) _ _ _ _ _ _ _ hf8 n hn).1)
    have hF9 : n9.filter isForType = [] := filter_eq_nil_of_false
      (fun n hn => (foldCat_nodesP (call_nodesP ids evOpt method.body) _ _ _ _ _ _ _ hf9 n hn).1)
    have hF1 : n1.filter isForType = [(create_for_node ids st0).1] := by
      rw [← hn1]
      simp [List.filter_cons, isForType_for, isForType_literal]
    have hX : ((n1 ++ (n2 ++ (n3 ++ (n4 ++ (n5 ++ (n6 ++ (n7 ++ (n8 ++ n9)))))))).filter
        isForType) = [(create_for_node ids st0).1] := by
      simp only [List.filter_append, hF1, hF2, hF3, hF4, hF5, hF6, hF7, hF8, hF9,
        List.append_nil]
    rcases hcase with ⟨-, evn, hevn, rfl, rfl⟩ | ⟨-, rfl, rfl, -⟩
    · rw [hns, List.singleton_append]
      obtain ⟨e0, hat, -, -, -, htype, -⟩ :=
        attach_comment_cons method.comments evn _
      rw [hat, List.filter_cons]
      have hevF : isForType e0 = false := by
        rw [isForType_of_node_type htype]
        have : evn = (create_event_node ids method.mname st).1 := by rw [hevn]
        rw [this]
        exact (notFIL_event_node ids method.mname st).1
      rw [hevF]
      simp only [Bool.false_eq_true, if_false]
      exact hX
    · rw [hns, attach_comment_none, List.nil_append]
      exact hX
  · -- exactly two integer literal nodes
    have hL2 : n2.filter isIntLiteral = [] := filter_eq_nil_of_false
      (fun n hn => (foldCat_nodesP (while_nodesP ids evOpt) _ _ _ _ _ _ _ hf2 n hn).2.1)
    have hL3 : n3.filter isIntLiteral = [] := filter_eq_nil_of_false
      (fun n hn => (foldCat_nodesP (foreach_nodesP ids evOpt) _ _ _ _ _ _ _ hf3 n hn).2.1)
    have hL4 : n4.filter isIntLiteral = [] := filter_eq_nil_of_false
      (fun n hn => (foldCat_nodesP (switch_nodesP ids evOpt method.body) _ _ _ _ _ _ _ hf4 n hn).2.1)
    have hL5 : n5.filter isIntLiteral = [] := filter_eq_nil_of_false
      (fun n hn => (foldCat_nodesP (debug_nodesP ids evOpt) _ _ _ _ _ _ _ hf5 n hn).2.1)
    have hL6 : n6.filter isIntLiteral = [] := filter_eq_nil_of_false
      (fun n hn => (foldCat_nodesP (if_nodesP ids evOpt) _ _ _ _ _ _ _ hf6 n hn).2)
    have hL7 : n7.filter isIntLiteral = [] := filter_eq_nil_of_false
      (fun n hn => (foldCat_nodesP (assign_nodesP ids evOpt) _ _ _ _ _ _ _ hf7 n hn).2.1)
    have hL8 : n8.filter isIntLiteral = [] := filter_eq_nil_of_false
      (fun n hn => (foldCat_nodesP (yield_nodesP ids evOpt) _ _ _ _ _ _ _ hf8 n hn).2.1)
    have hL9 : n9.filter isIntLiteral = [] := filter_eq_nil_of_false
      (fun n hn => (foldCat_nodesP (call_nodesP ids evOpt method.body) _ _ _ _ _ _ _ hf9 n hn).2.1)
    have hL1 : n1.filter isIntLiteral =
        [(create_literal_node ids (.pint 0) "int" (create_for_node ids st0).2).1,
         (create_literal_node ids (.pint 5) "int"
           (create_literal_node ids (.pint 0) "int" (create_for_node ids st0).2).2).1] := by
      rw [← hn1]
      simp [List.filter_cons, isIntLiteral_for, isIntLiteral_int_literal]
    have hX : ((n1 ++ (n2 ++ (n3 ++ (n4 ++ (n5 ++ (n6 ++ (n7 ++ (n8 ++ n9)))))))).filter
        isIntLiteral) =
        [(create_literal_node ids (.pint 0) "int" (create_for_node ids st0).2).1,
         (create_literal_node ids (.pint 5) "int"
           (create_literal_node ids (.pint 0) "int" (create_for_node ids st0).2).2).1] := by
      simp only [List.filter_append, hL1, hL2, hL3, hL4, hL5, hL6, hL7, hL8, hL9,
        List.append_nil]
    rcases hcase with ⟨-, evn, hevn, rfl, rfl⟩ | ⟨-, rfl, rfl, -⟩
    · rw [hns, List.singleton_append]
      obtain ⟨e0, hat, -, -, -, htype, hdv⟩ :=
        attach_comment_cons method.comments evn _
      rw [hat, List.filter_cons]
      have hevL : isIntLiteral e0 = false := by
        rw [isIntLiteral_of_fields htype hdv]
        have : evn = (create_event_node ids method.mname st).1 := by rw [hevn]
        rw [this]
        exact (notFIL_event_node ids method.mname st).2.1
      rw [hevL]
      simp only [Bool.false_eq_true, if_false]
      exact hX
    · rw [hns, attach_comment_none, List.nil_append]
      exact hX
  · -- the %firstIndex value connection
    refine ⟨(create_connection ids
        (create_literal_node ids (.pint 0) "int" (create_for_node ids st0).2).1
        "output" (create_for_node ids st0).1 "%firstIndex" false
        (wire_from ids evOpt evOpt (create_for_node ids st0).1
          (create_literal_node ids (.pint 5) "int"
            (create_literal_node ids (.pint 0) "int" (create_for_node ids st0).2).2).2).2).1,
      ?_, isCtrlConn_value ids _ _ _ _ _, rfl, rfl, rfl, rfl⟩
    rw [hcs, ← hc1]
    apply List.mem_append_left
    apply List.mem_append_right
    exact List.mem_cons_self _ _
  · -- the %lastIndex value connection
    refine ⟨(create_connection ids
        (create_literal_node ids (.pint 5) "int"
          (create_literal_node ids (.pint 0) "int" (create_for_node ids st0).2).2).1
        "output" (create_for_node ids st0).1 "%lastIndex" false
        (create_connection ids
          (create_literal_node ids (.pint 0) "int" (create_for_node ids st0).2).1
          "output" (create_for_node ids st0).1 "%firstIndex" false
          (wire_from ids evOpt evOpt (create_for_node ids st0).1
            (create_literal_node ids (.pint 5) "int"
              (create_literal_node ids (.pint 0) "int" (create_for_node ids st0).2).2).2).2).2).1,
      ?_, isCtrlConn_value ids _ _ _ _ _, rfl, rfl, rfl, rfl⟩
    rw [hcs, ← hc1]
    apply List.mem_append_left
    apply List.mem_append_right
    exact List.mem_cons_of_mem _ (List.mem_cons_self _ _)
  · -- the non-literal fallback defaults
    intro v hv
    constructor <;> simp [for_bound, hv]

theorem findIdx_append_lt {α} (p : α → Bool) (l1 l2 : List α)
    (hex : ∃ a ∈ l1, p a = true) : (l1 ++ l2).findIdx p < l1.length := by
  induction l1 with
  | nil =>
    obtain ⟨a, ha, -⟩ := hex
    exact absurd ha (List.not_mem_nil a)
  | cons x xs ih =>
    rw [List.cons_append, List.findIdx_cons]
    cases hx : p x with
    | true => simp
    | false =>
      obtain ⟨a, ha, hpa⟩ := hex
      rcases List.mem_cons.mp ha with rfl | ha2
      · rw [hx] at hpa; exact absurd hpa (by simp)
      · have hlt := ih ⟨a, ha2, hpa⟩
        simp only [cond_false, List.length_cons]
        exact Nat.succ_lt_succ hlt

theorem findIdx_append_all_false {α} (p : α → Bool) (l1 l2 : List α)
    (h : ∀ a ∈ l1, p a = false) :
    (l1 ++ l2).findIdx p = l1.length + l2.findIdx p := by
  induction l1 with
  | nil => simp
  | cons x xs ih =>
    rw [List.cons_append, List.findIdx_cons, h x (List.mem_cons_self x xs)]
    simp only [cond_false, List.length_cons]
    rw [ih (fun a ha => h a (List.mem_cons_of_mem x ha))]
    omega

theorem isIfType_if (ids : Ids) (st : GenState) :
    isIfType (create_if_node ids st).1 = true := rfl

theorem isForType_if (ids : Ids) (st : GenState) :
    isForType (create_if_node ids st).1 = false := rfl

theorem isCtor_literal_f (ids : Ids) (v : PyVal) (t : String) (st : GenState) :
    isCtor (create_literal_node ids v t st).1 = false := rfl

def dummyRM : RMatch := { ms := 0, me := 0, caps := [] }

set_option maxHeartbeats 4000000 in
/-- C2 (amended): for a method body with exactly one if-statement textually
followed by exactly one for-loop, the for-loop's node appears before the
if's node in the emitted node sequence, because the nine construct
categories are scanned in a fixed precedence (for-loops before
conditionals) regardless of textual interleaving.  When the method is a
recognized lifecycle event, the for node's inbound control connection also
precedes the if node's among the control connections; but for a
non-lifecycle method the for node, being the first construct processed,
receives no inbound control connection at all (the original claim's
"its inbound control connection is created before the if's node" fails
there). -/
theorem C2_category_precedence (ids : Ids) (method : MethodRec) (st : GenState)
    (h1 : (findIter forPat method.body).length = 1)
    (h2 : (findIter ifPat method.body).length = 1)
    (horder : ((findIter ifPat method.body).headD dummyRM).me ≤
      ((findIter forPat method.body).headD dummyRM).ms)
    (hs : (process_method ids method st).isSome = true)
    (hinj : ((pmNodes ids method st).map (node_id ids)).Nodup) :
    ((pmNodes ids method st).findIdx isForType <
      (pmNodes ids method st).findIdx isIfType ∧
     (pmNodes ids method st).findIdx isIfType < (pmNodes ids method st).length) ∧
    (isUnityEvent method.mname = true →
      (ctrlEdges (pmConns ids method st)).findIdx
          (fun e => e.dst == node_id ids
            (((pmNodes ids method st).filter isForType).headD dummyNode)) <
        (ctrlEdges (pmConns ids method st)).findIdx
          (fun e => e.dst == node_id ids
            (((pmNodes ids method st).filter isIfType).headD dummyNode)) ∧
      (ctrlEdges (pmConns ids method st)).findIdx
          (fun e => e.dst == node_id ids
            (((pmNodes ids method st).filter isIfType).headD dummyNode)) <
        (ctrlEdges (pmConns ids method st)).length) ∧
    (isUnityEvent method.mname = false →
      ∀ c ∈ pmConns ids method st, isCtrlConn c = true →
        c.destination_unit_id ≠ node_id ids
          (((pmNodes ids method st).filter isForType).headD dummyNode)) := by
  cases h : process_method ids method st with
  | none => rw [h] at hs; simp at hs
  | some out =>
  obtain ⟨ns, cs, st2⟩ := out
  obtain ⟨hpn, hpc⟩ := pm_eq ids method st h
  rw [hpn, hpc]
  rw [hpn] at hinj
  obtain ⟨evOpt, nodes0, st0, n1, n2, n3, n4, n5, n6, n7, n8, n9,
    c1, c2, c3, c4, c5, c6, c7, c8, c9, l1, l2, l3, l4, l5, l6, l7, l8, l9,
    s1, s2, s3, s4, s5, s6, s7, s8,
    hcase, hf1, hf2, hf3, hf4, hf5, hf6, hf7, hf8, hf9, hns, hcs⟩ :=
    process_method_inv ids method st h
  -- the for category has exactly one match and emits [for, lit, lit]
  cases hfi : findIter forPat method.body with
  | nil => rw [hfi] at h1; simp at h1
  | cons m0 rest0 =>
  cases rest0 with
  | cons a b => rw [hfi] at h1; simp at h1
  | nil =>
  rw [hfi] at hf1
  cases hb2 : for_bound (pyStrip (capD m0 2)) 0 with
  | none => simp [foldCat, for_step, hb2] at hf1
  | some sv =>
  cases hb4 : for_bound (pyStrip (capD m0 4)) 10 with
  | none => simp [foldCat, for_step, hb2, hb4] at hf1
  | some ev2 =>
  simp only [foldCat, for_step, hb2, hb4, Option.some.injEq, Prod.mk.injEq] at hf1
  obtain ⟨hn1, -, -, -⟩ := hf1
  rw [List.append_nil] at hn1
  -- the if category has exactly one match and emits if :: (possible comparison)
  cases hfi6 : findIter ifPat method.body with
  | nil => rw [hfi6] at h2; simp at h2
  | cons mi rest6 =>
  cases rest6 with
  | cons a b => rw [hfi6] at h2; simp at h2
  | nil =>
  rw [hfi6] at hf6
  have hn6 : ∃ r6, n6 = (create_if_node ids s5).1 :: r6 ∧
      ∀ n ∈ r6, isIfType n = false ∧ isCtor n = false := by
    cases hop : firstContained comparison_ops (pyStrip (capD mi 1)) with
    | some op =>
      simp only [foldCat, if_step, hop, Option.some.injEq, Prod.mk.injEq] at hf6
      obtain ⟨hn6', -, -, -⟩ := hf6
      rw [List.append_nil] at hn6'
      refine ⟨_, hn6'.symm, ?_⟩
      intro n hn
      rw [List.mem_singleton.mp hn]
      exact ⟨(notFIL_comparison ids op _).2.2, isCtor_comparison ids op _⟩
    | none =>
      simp only [foldCat, if_step, hop, Option.some.injEq, Prod.mk.injEq] at hf6
      obtain ⟨hn6', -, -, -⟩ := hf6
      rw [List.append_nil] at hn6'
      refine ⟨_, hn6'.symm, ?_⟩
      intro n hn
      exact absurd hn (List.not_mem_nil n)
  obtain ⟨r6, hn6e, hr6⟩ := hn6
  -- name the two suffixes of the emitted node blocks
  obtain ⟨Y8, hY8⟩ : ∃ Y8, Y8 = n2 ++ (n3 ++ (n4 ++ (n5 ++ (n6 ++ (n7 ++ (n8 ++ n9)))))) :=
    ⟨_, rfl⟩
  obtain ⟨X9, hX9⟩ : ∃ X9, X9 = n1 ++ Y8 := ⟨_, rfl⟩
  rw [← hY8, ← hX9] at hns
  -- inventory: blocks other than the if block contain no If node
  have hIf1 : ∀ n ∈ n1, isIfType n = false := by
    intro n hn
    rw [← hn1] at hn
    rcases List.mem_cons.mp hn with rfl | hn'
    · rfl
    · rcases List.mem_cons.mp hn' with rfl | hn''
      · rfl
      · rw [List.mem_singleton.mp hn'']; rfl
  have hIf2 : ∀ n ∈ n2, isIfType n = false := fun n hn =>
    (foldCat_nodesP (while_nodesP ids evOpt) _ _ _ _ _ _ _ hf2 n hn).2.2
  have hIf3 : ∀ n ∈ n3, isIfType n = false := fun n hn =>
    (foldCat_nodesP (foreach_nodesP ids evOpt) _ _ _ _ _ _ _ hf3 n hn).2.2
  have hIf4 : ∀ n ∈ n4, isIfType n = false := fun n hn =>
    (foldCat_nodesP (switch_nodesP ids evOpt method.body) _ _ _ _ _ _ _ hf4 n hn).2.2
  have hIf5 : ∀ n ∈ n5, isIfType n = false := fun n hn =>
    (foldCat_nodesP (debug_nodesP ids evOpt) _ _ _ _ _ _ _ hf5 n hn).2.2
  have hIf7 : ∀ n ∈ n7, isIfType n = false := fun n hn =>
    (foldCat_nodesP (assign_nodesP ids evOpt) _ _ _ _ _ _ _ hf7 n hn).2.2
  have hIf8 : ∀ n ∈ n8, isIfType n = false := fun n hn =>
    (foldCat_nodesP (yield_nodesP ids evOpt) _ _ _ _ _ _ _ hf8 n hn).2.2
  have hIf9 : ∀ n ∈ n9, isIfType n = false := fun n hn =>
    (foldCat_nodesP (call_nodesP ids evOpt method.body) _ _ _ _ _ _ _ hf9 n hn).2.2
  -- inventory: no For nodes outside block 1
  have hFor2 : ∀ n ∈ n2, isForType n = false := fun n hn =>
    (foldCat_nodesP (while_nodesP ids evOpt) _ _ _ _ _ _ _ hf2 n hn).1
  have hFor3 : ∀ n ∈ n3, isForType n = false := fun n hn =>
    (foldCat_nodesP (foreach_nodesP ids evOpt) _ _ _ _ _ _ _ hf3 n hn).1
  have hFor4 : ∀ n ∈ n4, isForType n = false := fun n hn =>
    (foldCat_nodesP (switch_nodesP ids evOpt method.body) _ _ _ _ _ _ _ hf4 n hn).1
  have hFor5 : ∀ n ∈ n5, isForType n = false := fun n hn =>
    (foldCat_nodesP (debug_nodesP ids evOpt) _ _ _ _ _ _ _ hf5 n hn).1
  have hFor6 : ∀ n ∈ n6, isForType n = false := fun n hn =>
    (foldCat_nodesP (if_nodesP ids evOpt) _ _ _ _ _ _ _ hf6 n hn).1
  have hFor7 : ∀ n ∈ n7, isForType n = false := fun n hn =>
    (foldCat_nodesP (assign_nodesP ids evOpt) _ _ _ _ _ _ _ hf7 n hn).1
  have hFor8 : ∀ n ∈ n8, isForType n = false := fun n hn =>
    (foldCat_nodesP (yield_nodesP ids evOpt) _ _ _ _ _ _ _ hf8 n hn).1
  have hFor9 : ∀ n ∈ n9, isForType n = false := fun n hn =>
    (foldCat_nodesP (call_nodesP ids evOpt method.body) _ _ _ _ _ _ _ hf9 n hn).1
  -- memberships
  have hfnmem : (create_for_node ids st0).1 ∈ n1 := by
    rw [← hn1]; exact List.mem_cons_self _ _
  have hifmem : (create_if_node ids s5).1 ∈ n6 := by
    rw [hn6e]; exact List.mem_cons_self _ _
  have hmemIfY : (create_if_node ids s5).1 ∈ Y8 := by
    rw [hY8]
    exact List.mem_append_right _ (List.mem_append_right _ (List.mem_append_right _
      (List.mem_append_right _ (List.mem_append_left _ hifmem))))
  have hmemIfX : (create_if_node ids s5).1 ∈ X9 := by
    rw [hX9]; exact List.mem_append_right _ hmemIfY
  -- block-level filters
  have hF1for : n1.filter isForType = [(create_for_node ids st0).1] := by
    rw [← hn1]
    simp [List.filter_cons, isForType_for, isForType_literal]
  have hFforX : X9.filter isForType = [(create_for_node ids st0).1] := by
    rw [hX9, hY8]
    simp only [List.filter_append, hF1for,
      filter_eq_nil_of_false hFor2, filter_eq_nil_of_false hFor3,
      filter_eq_nil_of_false hFor4, filter_eq_nil_of_false hFor5,
      filter_eq_nil_of_false hFor6, filter_eq_nil_of_false hFor7,
      filter_eq_nil_of_false hFor8, filter_eq_nil_of_false hFor9,
      List.append_nil, List.nil_append]
  have hr6nil : r6.filter isIfType = [] :=
    filter_eq_nil_of_false (fun n hn => (hr6 n hn).1)
  have hF6if : n6.filter isIfType = [(create_if_node ids s5).1] := by
    rw [hn6e]
    simp [List.filter_cons, isIfType_if, hr6nil]
  have hFifX : X9.filter isIfType = [(create_if_node ids s5).1] := by
    rw [hX9, hY8]
    simp only [List.filter_append, hF6if,
      filter_eq_nil_of_false hIf1, filter_eq_nil_of_false hIf2,
      filter_eq_nil_of_false hIf3, filter_eq_nil_of_false hIf4,
      filter_eq_nil_of_false hIf5, filter_eq_nil_of_false hIf7,
      filter_eq_nil_of_false hIf8, filter_eq_nil_of_false hIf9,
      List.append_nil, List.nil_append]
  -- construct filters
  have hCtor1 : n1.filter isCtor = [(create_for_node ids st0).1] := by
    rw [← hn1]
    simp [List.filter_cons, isCtor_for, isCtor_literal_f]
  have hCtorX : X9.filter isCtor =
      (create_for_node ids st0).1 :: Y8.filter isCtor := by
    rw [hX9, List.filter_append, hCtor1, List.singleton_append]
  have hifCtorMem : (create_if_node ids s5).1 ∈ Y8.filter isCtor :=
    List.mem_filter.mpr ⟨hmemIfY, isCtor_if ids s5⟩
  -- findIdx facts on the construct suffix
  have hXfor : X9.findIdx isForType < n1.length := by
    rw [hX9]
    exact findIdx_append_lt _ _ _
      ⟨(create_for_node ids st0).1, hfnmem, isForType_for ids st0⟩
  have hXifge : n1.length ≤ X9.findIdx isIfType := by
    rw [hX9, findIdx_append_all_false _ _ _ hIf1]
    omega
  have hexIf : ∃ x ∈ X9, isIfType x = true :=
    ⟨(create_if_node ids s5).1, hmemIfX, isIfType_if ids s5⟩
  have hXifLt : X9.findIdx isIfType < X9.length :=
    List.findIdx_lt_length_of_exists hexIf
  -- node-level filters (lifting over the optional event head)
  have hFiltForNs : ns.filter isForType = [(create_for_node ids st0).1] := by
    rcases hcase with ⟨-, evn, hevn, rfl, rfl⟩ | ⟨-, rfl, rfl, -⟩
    · rw [hns, List.singleton_append]
      obtain ⟨e0, hat, -, -, -, htype, -⟩ := attach_comment_cons method.comments evn X9
      rw [hat, List.filter_cons]
      have hee : evn = (create_event_node ids method.mname st).1 := by rw [hevn]
      have hevF : isForType e0 = false := by
        rw [isForType_of_node_type htype, hee]
        exact (notFIL_event_node ids method.mname st).1
      rw [hevF]
      simp only [Bool.false_eq_true, if_false]
      exact hFforX
    · rw [hns, attach_comment_none, List.nil_append]
      exact hFforX
  have hFiltIfNs : ns.filter isIfType = [(create_if_node ids s5).1] := by
    rcases hcase with ⟨-, evn, hevn, rfl, rfl⟩ | ⟨-, rfl, rfl, -⟩
    · rw [hns, List.singleton_append]
      obtain ⟨e0, hat, -, -, -, htype, -⟩ := attach_comment_cons method.comments evn X9
      rw [hat, List.filter_cons]
      have hee : evn = (create_event_node ids method.mname st).1 := by rw [hevn]
      have hevI : isIfType e0 = false := by
        rw [isIfType_of_node_type htype, hee]
        exact (notFIL_event_node ids method.mname st).2.2
      rw [hevI]
      simp only [Bool.false_eq_true, if_false]
      exact hFifX
    · rw [hns, attach_comment_none, List.nil_append]
      exact hFifX
  -- part 1: node emission order
  have hpart1 : ns.findIdx isForType < ns.findIdx isIfType ∧
      ns.findIdx isIfType < ns.length := by
    rcases hcase with ⟨-, evn, hevn, rfl, rfl⟩ | ⟨-, rfl, rfl, -⟩
    · rw [hns, List.singleton_append]
      obtain ⟨e0, hat, -, -, -, htype, -⟩ := attach_comment_cons method.comments evn X9
      rw [hat]
      have hee : evn = (create_event_node ids method.mname st).1 := by rw [hevn]
      have hevF : isForType e0 = false := by
        rw [isForType_of_node_type htype, hee]
        exact (notFIL_event_node ids method.mname st).1
      have hevI : isIfType e0 = false := by
        rw [isIfType_of_node_type htype, hee]
        exact (notFIL_event_node ids method.mname st).2.2
      rw [List.findIdx_cons, hevF, List.findIdx_cons, hevI]
      simp only [cond_false, List.length_cons]
      omega
    · rw [hns, attach_comment_none, List.nil_append]
      exact ⟨Nat.lt_of_lt_of_le hXfor hXifge, hXifLt⟩
  refine ⟨hpart1, ?_, ?_⟩
  · -- lifecycle: for's control wire precedes the if's
    intro hev
    rw [hFiltForNs, hFiltIfNs]
    simp only [List.headD_cons]
    obtain ⟨e0', rest', -, -, -, -, hchain⟩ :=
      process_method_chain_event ids method st hev h
    have hnsCtor : ns.filter isCtor =
        (create_for_node ids st0).1 :: Y8.filter isCtor := by
      rcases hcase with ⟨-, evn, hevn, rfl, rfl⟩ | ⟨hfalse, -⟩
      · rw [hns, List.singleton_append]
        obtain ⟨e0, hat, hports0, -, -, -, -⟩ := attach_comment_cons method.comments evn X9
        rw [hat, List.filter_cons]
        have hee : evn = (create_event_node ids method.mname st).1 := by rw [hevn]
        have he0c : isCtor e0 = false := by
          rw [isCtor_of_ports hports0, hee]
          exact isCtor_event ids method.mname st
        rw [he0c]
        simp only [Bool.false_eq_true, if_false]
        exact hCtorX
      · rw [hev] at hfalse; exact absurd hfalse (by simp)
    rw [hnsCtor] at hchain
    simp only [List.map_cons] at hchain
    rw [hchain]
    have hcf : chainFrom (some (node_id ids e0', "trigger"))
        (node_id ids (create_for_node ids st0).1 ::
          ((Y8.filter isCtor).map (node_id ids))) =
        CEdge.mk (node_id ids e0') "trigger"
            (node_id ids (create_for_node ids st0).1) "enter" ::
          chainFrom (some (node_id ids (create_for_node ids st0).1, "exit"))
            ((Y8.filter isCtor).map (node_id ids)) := rfl
    rw [hcf]
    have hifIn : node_id ids (create_if_node ids s5).1 ∈
        (Y8.filter isCtor).map (node_id ids) :=
      List.mem_map_of_mem _ hifCtorMem
    have hsub2 : ((ns.filter isCtor).map (node_id ids)).Sublist
        (ns.map (node_id ids)) := List.Sublist.map _ (List.filter_sublist ns)
    have hnd := hinj.sublist hsub2
    rw [hnsCtor, List.map_cons] at hnd
    have hne : (node_id ids (create_for_node ids st0).1 ==
        node_id ids (create_if_node ids s5).1) = false := by
      have hneq : node_id ids (create_for_node ids st0).1 ≠
          node_id ids (create_if_node ids s5).1 := by
        intro heq
        apply (List.nodup_cons.mp hnd).1
        rw [heq]
        exact hifIn
      simpa using hneq
    constructor
    · rw [List.findIdx_cons, List.findIdx_cons]
      simp only [beq_self_eq_true, cond_true, hne, cond_false]
      omega
    · apply List.findIdx_lt_length_of_exists
      have hdsts := chainFrom_some_dst ((Y8.filter isCtor).map (node_id ids))
        (node_id ids (create_for_node ids st0).1, "exit")
      have hifIn2 : node_id ids (create_if_node ids s5).1 ∈
          (chainFrom (some (node_id ids (create_for_node ids st0).1, "exit"))
            ((Y8.filter isCtor).map (node_id ids))).map (fun e => e.dst) := by
        rw [hdsts]; exact hifIn
      obtain ⟨e, he, hed⟩ := List.mem_map.mp hifIn2
      exact ⟨e, List.mem_cons_of_mem _ he, by simp [hed]⟩
  · -- non-lifecycle: the for node gets no inbound control connection
    intro hev c hc hctl hdst
    rw [hFiltForNs] at hdst
    simp only [List.headD_cons] at hdst
    have hchain := process_method_chain_plain ids method st hev h
    have hnsCtor : ns.filter isCtor =
        (create_for_node ids st0).1 :: Y8.filter isCtor := by
      rcases hcase with ⟨htrue, -⟩ | ⟨-, rfl, rfl, -⟩
      · rw [hev] at htrue; exact absurd htrue (by simp)
      · rw [hns, attach_comment_none, List.nil_append]
        exact hCtorX
    rw [hnsCtor] at hchain
    simp only [List.map_cons] at hchain
    have hcf2 : chainFrom (none : Option (String × String))
        (node_id ids (create_for_node ids st0).1 ::
          ((Y8.filter isCtor).map (node_id ids))) =
        chainFrom (some (node_id ids (create_for_node ids st0).1, "exit"))
          ((Y8.filter isCtor).map (node_id ids)) := rfl
    rw [hcf2] at hchain
    have hedge : edgeOf c ∈ ctrlEdges cs := by
      simp only [ctrlEdges, List.mem_filterMap]
      exact ⟨c, hc, by simp [hctl, edgeOf]⟩
    rw [hchain] at hedge
    have hdst2 : (edgeOf c).dst ∈ (Y8.filter isCtor).map (node_id ids) := by
      rw [← chainFrom_some_dst ((Y8.filter isCtor).map (node_id ids))
        (node_id ids (create_for_node ids st0).1, "exit")]
      exact List.mem_map_of_mem _ hedge
    have hsub2 : ((ns.filter isCtor).map (node_id ids)).Sublist
        (ns.map (node_id ids)) := List.Sublist.map _ (List.filter_sublist ns)
    have hnd := hinj.sublist hsub2
    rw [hnsCtor, List.map_cons] at hnd
    have hde : (edgeOf c).dst = node_id ids (create_for_node ids st0).1 := hdst
    rw [hde] at hdst2
    exact (List.nodup_cons.mp hnd).1 hdst2

def mC2w : MethodRec :=
  { mname := "Update".data,
    body := "if (x > 1) y = 2; for (int i = 0; i < 5; i++) ;".data, comments := [] }

def mC2cx : MethodRec :=
  { mname := "Foo".data,
    body := "if (x > 1) y = 1; for (int i = 0; i < 5; i++) ;".data, comments := [] }

/-- Counterexample to the original C2 wording: a non-lifecycle method whose
body has one if-statement textually followed by one for-loop.  The for-loop
node is emitted (uniquely), the translation succeeds, yet no control
connection at all is created into the for-loop node — so "its inbound
control connection is created before the if's node" is false: processed
first with no event seed, the for-loop gets no inbound control wire. -/
theorem C2_category_precedence_cx :
    (findIter forPat mC2cx.body).length = 1 ∧
    (findIter ifPat mC2cx.body).length = 1 ∧
    ((findIter ifPat mC2cx.body).headD dummyRM).me ≤
      ((findIter forPat mC2cx.body).headD dummyRM).ms ∧
    (process_method ids0 mC2cx initState).isSome = true ∧
    ((pmNodes ids0 mC2cx initState).filter isForType).length = 1 ∧
    (∀ c ∈ pmConns ids0 mC2cx initState, isCtrlConn c = true →
      c.destination_unit_id ≠ node_id ids0
        (((pmNodes ids0 mC2cx initState).filter isForType).headD dummyNode)) := by
  decide

/-- Witness for the amended C2 at a lifecycle method whose body is an
if-statement textually followed by a for-loop. -/
theorem C2_category_precedence_witness :
    ((pmNodes ids0 mC2w initState).findIdx isForType <
      (pmNodes ids0 mC2w initState).findIdx isIfType ∧
     (pmNodes ids0 mC2w initState).findIdx isIfType <
      (pmNodes ids0 mC2w initState).length) ∧
    (isUnityEvent mC2w.mname = true →
      (ctrlEdges (pmConns ids0 mC2w initState)).findIdx
          (fun e => e.dst == node_id ids0
            (((pmNodes ids0 mC2w initState).filter isForType).headD dummyNode)) <
        (ctrlEdges (pmConns ids0 mC2w initState)).findIdx
          (fun e => e.dst == node_id ids0
            (((pmNodes ids0 mC2w initState).filter isIfType).headD dummyNode)) ∧
      (ctrlEdges (pmConns ids0 mC2w initState)).findIdx
          (fun e => e.dst == node_id ids0
            (((pmNodes ids0 mC2w initState).filter isIfType).headD dummyNode)) <
        (ctrlEdges (pmConns ids0 mC2w initState)).length) ∧
    (isUnityEvent mC2w.mname = false →
      ∀ c ∈ pmConns ids0 mC2w initState, isCtrlConn c = true →
        c.destination_unit_id ≠ node_id ids0
          (((pmNodes ids0 mC2w initState).filter isForType).headD dummyNode)) :=
  C2_category_precedence ids0 mC2w initState (by decide) (by decide) (by decide)
    (by decide) (by decide)

def mC3w : MethodRec :=
  { mname := "Start".data, body := "for (int i = 0; i < 5; i++) ;".data, comments := [] }

/-- Witness for C3 at a concrete method holding one for-loop from 0 to 5. -/
theorem C3_for_bound_literals_witness :
    ∃ fn sl el, (pmNodes ids0 mC3w initState).filter isForType = [fn] ∧
      (pmNodes ids0 mC3w initState).filter isIntLiteral = [sl, el] ∧
      litVal sl = some (.pint 0) ∧ litVal el = some (.pint 5) ∧
      (∃ c ∈ pmConns ids0 mC3w initState, isCtrlConn c = false ∧
        c.source_unit_id = node_id ids0 sl ∧ c.source_key = "output" ∧
        c.destination_unit_id = node_id ids0 fn ∧ c.destination_key = "%firstIndex") ∧
      (∃ c ∈ pmConns ids0 mC3w initState, isCtrlConn c = false ∧
        c.source_unit_id = node_id ids0 el ∧ c.source_key = "output" ∧
        c.destination_unit_id = node_id ids0 fn ∧ c.destination_key = "%lastIndex") ∧
      (∀ v : List Char, pyStrIsDigit v = false →
        for_bound v 0 = some 0 ∧ for_bound v 10 = some 10) :=
  C3_for_bound_literals ids0 mC3w initState (by decide) (by decide)

def mC4 : MethodRec :=
  { mname := "Update".data,
    body := "switch (x) \x7b case 1: break; case 2: break; \x7d".data, comments := [] }

/-- C4 (code bug): the switch-body extractor is called with the position
just past the switch's opening brace but starts its depth count at zero, so
the first closing brace drives the depth to -1 and the zero test never
fires: for a switch with no nested braces the extracted body is empty and
the emitted switch node gets zero numbered case outputs (plus the fixed
`default` output), although the brace-balanced body — extracted by the same
scan seeded at the opening brace, as for method bodies — holds two
`case N:` labels. -/
theorem C4_switch_case_count_bug :
    (findIter switchPat mC4.body).length = 1 ∧
    (findIter casePat (extract_body mC4.body
      (((findIter switchPat mC4.body).headD dummyRM).me - 1))).length = 2 ∧
    extract_switch_body mC4.body ((findIter switchPat mC4.body).headD dummyRM).me = [] ∧
    (process_method ids0 mC4 initState).isSome = true ∧
    ((pmNodes ids0 mC4 initState).filter
      (fun n => n.node_type == "Unity.VisualScripting.SwitchOnInteger")).map
      (fun n => ((numberedCaseOutputs n).length,
        (n.ports.filter (fun p => p.pname == "default")).length)) = [(0, 1)] := by
  decide

/-- C7 (code bug): translation does not complete on every input.  The
for-loop bound guard uses Python's `str.isdigit`, which accepts the
superscript digit while `int()` rejects it, so `int(start_val)` raises an
uncaught ValueError (the only try/except in the program guards the
WaitForSeconds float parse) and translation of the whole document aborts
instead of falling back to the 0/10 defaults.  In the embedding, the raise
is the `none` outcome: the digit test passes, the integer parse fails, and
`convert` returns `none` on a class whose Start method holds such a loop. -/
theorem C7_superscript_digit_crash :
    pyStrIsDigit "²".data = true ∧
    pyIntParse? "²".data = none ∧
    convert ids0
      "class A \x7b void Start() \x7b for (int i = ²; i < 5; i++) \x7b \x7d \x7d \x7d" =
      none := by
  decide

theorem foldl_push {α β : Type} (f : α → β) :
    ∀ (l : List α) (acc : List β),
      l.foldl (fun a x => a ++ [f x]) acc = acc ++ l.map f := by
  intro l
  induction l with
  | nil => intro acc; simp
  | cons x xs ih =>
    intro acc
    simp only [List.foldl_cons, List.map_cons, ih]
    simp [List.append_assoc]

theorem gg_methods_acc (ids : Ids) :
    ∀ (ms : List MethodRec) (accN : List Node) (accC : List Connection) (st : GenState),
      gg_methods ids ms accN accC st =
        (gg_methods ids ms [] [] st).map
          (fun out => (accN ++ out.1, accC ++ out.2.1, out.2.2)) := by
  intro ms
  induction ms with
  | nil => intro accN accC st; simp [gg_methods]
  | cons m rest ih =>
    intro accN accC st
    simp only [gg_methods]
    cases hp : process_method ids m st with
    | none => simp
    | some out =>
      obtain ⟨mn, mc, st2⟩ := out
      dsimp only
      rw [ih (accN ++ mn) (accC ++ mc) st2, ih ([] ++ mn) ([] ++ mc) st2]
      cases hg : gg_methods ids rest [] [] st2 with
      | none => simp
      | some o2 =>
        obtain ⟨ns2, cs2, st3⟩ := o2
        simp [List.append_assoc]

theorem generate_graph_elements (ids : Ids) (p : Parsed) (d : Doc)
    (h : generate_graph ids p = some d) :
    d.elements = d.nodes.map Element.node ++ d.connections.map Element.conn := by
  cases hg : gg_methods ids p.methods [] [] initState with
  | none => simp [generate_graph, hg] at h
  | some out =>
    obtain ⟨ns, cs, st⟩ := out
    simp only [generate_graph, hg, Option.some.injEq] at h
    subst h
    dsimp only
    rw [foldl_push Element.node, foldl_push Element.conn]
    simp

/-- C9: the serialized element sequence of every generated document is all
node elements, in emission order, followed by all connection elements; and
the emitted node and connection lists concatenate per method in order: the
first method's emissions are a prefix, and the remaining methods contribute
exactly what they would on their own from the carried-over generator
state. -/
theorem C9_elements_nodes_before_connections (ids : Ids) (code : String) :
    ((cdoc ids code).elements =
      (cdoc ids code).nodes.map Element.node ++
        (cdoc ids code).connections.map Element.conn) ∧
    (∀ (m : MethodRec) (ms : List MethodRec) (st st2 stOut : GenState)
        (mn ns : List Node) (mc cs : List Connection),
      process_method ids m st = some (mn, mc, st2) →
      gg_methods ids (m :: ms) [] [] st = some (ns, cs, stOut) →
      ∃ ns2 cs2, gg_methods ids ms [] [] st2 = some (ns2, cs2, stOut) ∧
        ns = mn ++ ns2 ∧ cs = mc ++ cs2) := by
  constructor
  · cases h : convert ids code with
    | none => simp [cdoc, h, emptyDoc]
    | some d =>
      have hd : cdoc ids code = d := by simp [cdoc, h]
      rw [hd]
      refine generate_graph_elements ids (parse_csharp code.data) d ?_
      simpa [convert] using h
  · intro m ms st st2 stOut mn ns mc cs hp hg
    simp only [gg_methods, hp, List.nil_append] at hg
    rw [gg_methods_acc ids ms mn mc st2] at hg
    cases hg2 : gg_methods ids ms [] [] st2 with
    | none => rw [hg2] at hg; exact absurd hg (by simp)
    | some o2 =>
      obtain ⟨ns2, cs2, st3⟩ := o2
      rw [hg2] at hg
      simp only [Option.map_some', Option.some.injEq, Prod.mk.injEq] at hg
      obtain ⟨h1, h2, h3⟩ := hg
      subst h3
      exact ⟨ns2, cs2, rfl, h1.symm, h2.symm⟩

def optToList : Option Node → List Node
  | some n => [n]
  | none => []

theorem optToList_mem {o : Option Node} {n : Node} (h : n ∈ optToList o) :
    o = some n := by
  cases o with
  | none => exact absurd h (by simp [optToList])
  | some a =>
    have : n = a := by simpa [optToList] using h
    rw [this]

/-- Connection-endpoint soundness relative to a source pool and a
destination pool: every connection's source id is the id of a pool node and
its destination id is the id of a construct node of the destination pool. -/
def EndsOK (ids : Ids) (pool dpool : List Node) (cs : List Connection) : Prop :=
  ∀ c ∈ cs, (∃ n ∈ pool, node_id ids n = c.source_unit_id) ∧
    (∃ n ∈ dpool, isCtor n = true ∧ node_id ids n = c.destination_unit_id)

def StepEndsP (ids : Ids) (ev : Option Node) (step : StepFn) : Prop :=
  ∀ m last st ns cs l2 st2, step m last st = some (ns, cs, l2, st2) →
    EndsOK ids (optToList ev ++ (optToList last ++ ns)) ns cs ∧
    (l2 = last ∨ ∃ n ∈ ns, l2 = some n)

theorem wire_ends {ids : Ids} {ev last : Option Node} {dest : Node} {st : GenState}
    {wc : List Connection} {stw : GenState}
    (hw : wire_from ids ev last dest st = (wc, stw)) :
    ∀ c ∈ wc, (∃ n ∈ optToList last, node_id ids n = c.source_unit_id) ∧
      node_id ids dest = c.destination_unit_id := by
  cases last with
  | none =>
    simp only [wire_from] at hw
    obtain ⟨rfl, rfl⟩ := Prod.mk.inj hw
    intro c hc
    exact absurd hc (List.not_mem_nil c)
  | some ln =>
    simp only [wire_from, create_connection] at hw
    obtain ⟨rfl, rfl⟩ := Prod.mk.inj hw
    intro c hc
    rw [List.mem_singleton.mp hc]
    exact ⟨⟨ln, by simp [optToList], rfl⟩, rfl⟩

theorem while_endsP (ids : Ids) (ev : Option Node) :
    StepEndsP ids ev (while_step ids ev) := by
  intro m last st ns cs l2 st2 hstep
  cases hwn : create_while_node ids st with
  | mk wn st1 =>
  cases hw : wire_from ids ev last wn st1 with
  | mk wc stw =>
  simp only [while_step, hwn, hw, Option.some.injEq, Prod.mk.injEq] at hstep
  obtain ⟨rfl, rfl, rfl, rfl⟩ := hstep
  have hctor : isCtor wn = true := by
    have hp : wn = (create_while_node ids st).1 := by rw [hwn]
    rw [hp]; exact isCtor_while ids st
  refine ⟨?_, Or.inr ⟨wn, List.mem_singleton.mpr rfl, rfl⟩⟩
  intro c hc
  obtain ⟨⟨n, hn, he⟩, hdst⟩ := wire_ends hw c hc
  exact ⟨⟨n, List.mem_append_right _ (List.mem_append_left _ hn), he⟩,
    ⟨wn, List.mem_singleton.mpr rfl, hctor, hdst⟩⟩

theorem for_endsP (ids : Ids) (ev : Option Node) :
    StepEndsP ids ev (for_step ids ev) := by
  intro m last st ns cs l2 st2 hstep
  cases hb1 : for_bound (pyStrip (capD m 2)) 0 with
  | none => simp [for_step, hb1] at hstep
  | some sv =>
  cases hb2 : for_bound (pyStrip (capD m 4)) 10 with
  | none => simp [for_step, hb1, hb2] at hstep
  | some ev2 =>
  cases hfr : create_for_node ids st with
  | mk fn st1 =>
  cases hsr : create_literal_node ids (.pint sv) "int" st1 with
  | mk sl stb =>
  cases her : create_literal_node ids (.pint ev2) "int" stb with
  | mk el stc =>
  cases hw : wire_from ids ev last fn stc with
  | mk wc stw =>
  cases hc1 : create_connection ids sl "output" fn "%firstIndex" false stw with
  | mk cc1 std1 =>
  cases hc2 : create_connection ids el "output" fn "%lastIndex" false std1 with
  | mk cc2 std2 =>
  simp only [for_step, hb1, hb2, hfr, hsr, her, hw, hc1, hc2,
    Option.some.injEq, Prod.mk.injEq] at hstep
  obtain ⟨rfl, rfl, rfl, rfl⟩ := hstep
  have hfn : fn = (create_for_node ids st).1 := by rw [hfr]
  have hctor : isCtor fn = true := by rw [hfn]; exact isCtor_for ids st
  have hfnMemP : fn ∈ optToList ev ++ (optToList last ++ [fn, sl, el]) :=
    List.mem_append_right _ (List.mem_append_right _ (List.mem_cons_self _ _))
  have hfnMemD : fn ∈ [fn, sl, el] := List.mem_cons_self _ _
  have hslMemP : sl ∈ optToList ev ++ (optToList last ++ [fn, sl, el]) :=
    List.mem_append_right _ (List.mem_append_right _
      (List.mem_cons_of_mem _ (List.mem_cons_self _ _)))
  have helMemP : el ∈ optToList ev ++ (optToList last ++ [fn, sl, el]) :=
    List.mem_append_right _ (List.mem_append_right _
      (List.mem_cons_of_mem _ (List.mem_cons_of_mem _ (List.mem_singleton.mpr rfl))))
  have hcc1e : cc1 = (create_connection ids sl "output" fn "%firstIndex" false stw).1 := by
    rw [hc1]
  have hcc2e : cc2 = (create_connection ids el "output" fn "%lastIndex" false std1).1 := by
    rw [hc2]
  refine ⟨?_, Or.inr ⟨fn, hfnMemD, rfl⟩⟩
  intro c hc
  rcases List.mem_append.mp hc with hcw | hcv
  · obtain ⟨⟨n, hn, he⟩, hdst⟩ := wire_ends hw c hcw
    exact ⟨⟨n, List.mem_append_right _ (List.mem_append_left _ hn), he⟩,
      ⟨fn, hfnMemD, hctor, hdst⟩⟩
  · rcases List.mem_cons.mp hcv with rfl | hcv2
    · refine ⟨⟨sl, hslMemP, ?_⟩, ⟨fn, hfnMemD, hctor, ?_⟩⟩
      · rw [hcc1e]; exact (conn_fields ids sl "output" fn "%firstIndex" false stw).1.symm
      · rw [hcc1e]; exact (conn_fields ids sl "output" fn "%firstIndex" false stw).2.2.1.symm
    · rw [List.mem_singleton.mp hcv2]
      refine ⟨⟨el, helMemP, ?_⟩, ⟨fn, hfnMemD, hctor, ?_⟩⟩
      · rw [hcc2e]; exact (conn_fields ids el "output" fn "%lastIndex" false std1).1.symm
      · rw [hcc2e]; exact (conn_fields ids el "output" fn "%lastIndex" false std1).2.2.1.symm

theorem foldCat_ends {ids : Ids} {ev : Option Node} {step : StepFn}
    (hstep : StepEndsP ids ev step) :
    ∀ (ms : List RMatch) (last : Option Node) (st : GenState) ns cs l2 st2,
      foldCat step ms last st = some (ns, cs, l2, st2) →
      EndsOK ids (optToList ev ++ (optToList last ++ ns)) ns cs ∧
      (l2 = last ∨ ∃ n ∈ ns, l2 = some n) := by
  intro ms
  induction ms with
  | nil =>
    intro last st ns cs l2 st2 h
    simp only [foldCat, Option.some.injEq, Prod.mk.injEq] at h
    obtain ⟨rfl, rfl, rfl, rfl⟩ := h
    exact ⟨fun c hc => absurd hc (List.not_mem_nil c), Or.inl rfl⟩
  | cons m ms ih =>
    intro last st ns cs l2 st2 h
    simp only [foldCat] at h
    cases h1 : step m last st with
    | none => simp [h1] at h
    | some o1 =>
    obtain ⟨ns1, cs1, lm, st1⟩ := o1
    cases h2 : foldCat step ms lm st1 with
    | none => simp [h1, h2] at h
    | some o2 =>
    obtain ⟨ns2, cs2, lr, str⟩ := o2
    simp only [h1, h2, Option.some.injEq, Prod.mk.injEq] at h
    obtain ⟨rfl, rfl, rfl, rfl⟩ := h
    obtain ⟨hE1, hL1⟩ := hstep m last st ns1 cs1 lm st1 h1
    obtain ⟨hE2, hL2⟩ := ih lm st1 ns2 cs2 lr str h2
    constructor
    · intro c hc
      rcases List.mem_append.mp hc with hc1 | hc2
      · obtain ⟨⟨n, hn, he⟩, ⟨n2, hn2, hct, he2⟩⟩ := hE1 c hc1
        refine ⟨⟨n, ?_, he⟩, ⟨n2, List.mem_append_left _ hn2, hct, he2⟩⟩
        rcases List.mem_append.mp hn with ha | hb
        · exact List.mem_append_left _ ha
        · rcases List.mem_append.mp hb with hbl | hbn
          · exact List.mem_append_right _ (List.mem_append_left _ hbl)
          · exact List.mem_append_right _
              (List.mem_append_right _ (List.mem_append_left _ hbn))
      · obtain ⟨⟨n, hn, he⟩, ⟨n2, hn2, hct, he2⟩⟩ := hE2 c hc2
        refine ⟨⟨n, ?_, he⟩, ⟨n2, List.mem_append_right _ hn2, hct, he2⟩⟩
        rcases List.mem_append.mp hn with ha | hb
        · exact List.mem_append_left _ ha
        · rcases List.mem_append.mp hb with hbl | hbn
          · rcases hL1 with rfl | ⟨nm, hnm, rfl⟩
            · exact List.mem_append_right _ (List.mem_append_left _ hbl)
            · have hnn : n = nm := by simpa [optToList] using hbl
              rw [hnn]
              exact List.mem_append_right _
                (List.mem_append_right _ (List.mem_append_left _ hnm))
          · exact List.mem_append_right _
              (List.mem_append_right _ (List.mem_append_right _ hbn))
    · rcases hL2 with rfl | ⟨n, hn, rfl⟩
      · rcases hL1 with rfl | ⟨n, hn, rfl⟩
        · exact Or.inl rfl
        · exact Or.inr ⟨n, List.mem_append_left _ hn, rfl⟩
      · exact Or.inr ⟨n, List.mem_append_right _ hn, rfl⟩

theorem foreach_endsP (ids : Ids) (ev : Option Node) :
    StepEndsP ids ev (foreach_step ids ev) := by
  intro m last st ns cs l2 st2 hstep
  cases hwn : create_foreach_node ids st with
  | mk wn st1 =>
  cases hw : wire_from ids ev last wn st1 with
  | mk wc stw =>
  simp only [foreach_step, hwn, hw, Option.some.injEq, Prod.mk.injEq] at hstep
  obtain ⟨rfl, rfl, rfl, rfl⟩ := hstep
  have hctor : isCtor wn = true := by
    have hp : wn = (create_foreach_node ids st).1 := by rw [hwn]
    rw [hp]; exact isCtor_foreach ids st
  refine ⟨?_, Or.inr ⟨wn, List.mem_singleton.mpr rfl, rfl⟩⟩
  intro c hc
  obtain ⟨⟨n, hn, he⟩, hdst⟩ := wire_ends hw c hc
  exact ⟨⟨n, List.mem_append_right _ (List.mem_append_left _ hn), he⟩,
    ⟨wn, List.mem_singleton.mpr rfl, hctor, hdst⟩⟩

theorem switch_endsP (ids : Ids) (ev : Option Node) (body : List Char) :
    StepEndsP ids ev (switch_step ids ev body) := by
  intro m last st ns cs l2 st2 hstep
  cases hwn : create_switch_node ids
      ((findIter casePat (extract_switch_body body m.me)).length) st with
  | mk wn st1 =>
  cases hw : wire_from ids ev last wn st1 with
  | mk wc stw =>
  simp only [switch_step, hwn, hw, Option.some.injEq, Prod.mk.injEq] at hstep
  obtain ⟨rfl, rfl, rfl, rfl⟩ := hstep
  have hctor : isCtor wn = true := by
    have hp : wn = (create_switch_node ids
        ((findIter casePat (extract_switch_body body m.me)).length) st).1 := by rw [hwn]
    rw [hp]; exact isCtor_switch ids _ st
  refine ⟨?_, Or.inr ⟨wn, List.mem_singleton.mpr rfl, rfl⟩⟩
  intro c hc
  obtain ⟨⟨n, hn, he⟩, hdst⟩ := wire_ends hw c hc
  exact ⟨⟨n, List.mem_append_right _ (List.mem_append_left _ hn), he⟩,
    ⟨wn, List.mem_singleton.mpr rfl, hctor, hdst⟩⟩

theorem debug_endsP (ids : Ids) (ev : Option Node) :
    StepEndsP ids ev (debug_step ids ev) := by
  intro m last st ns cs l2 st2 hstep
  cases hdr : create_invoke_node ids "Log" "UnityEngine.Debug"
      [("System.Object", "message")] none st with
  | mk dn st1 =>
  cases hw : wire_from ids ev last dn st1 with
  | mk wc stw =>
  have hctor : isCtor dn = true := by
    have hp : dn = (create_invoke_node ids "Log" "UnityEngine.Debug"
        [("System.Object", "message")] none st).1 := by rw [hdr]
    rw [hp]; exact isCtor_invoke ids _ _ _ _ st
  simp only [debug_step, hdr, hw] at hstep
  split at hstep
  · simp only [Option.some.injEq, Prod.mk.injEq] at hstep
    obtain ⟨rfl, rfl, rfl, rfl⟩ := hstep
    refine ⟨?_, Or.inr ⟨dn, List.mem_cons_self _ _, rfl⟩⟩
    intro c hc
    rcases List.mem_append.mp hc with hcw | hcv
    · obtain ⟨⟨n, hn, he⟩, hdst⟩ := wire_ends hw c hcw
      exact ⟨⟨n, List.mem_append_right _ (List.mem_append_left _ hn), he⟩,
        ⟨dn, List.mem_cons_self _ _, hctor, hdst⟩⟩
    · rw [List.mem_singleton.mp hcv]
      refine ⟨⟨_, List.mem_append_right _ (List.mem_append_right _
          (List.mem_cons_of_mem _ (List.mem_singleton.mpr rfl))), ?_⟩,
        ⟨dn, List.mem_cons_self _ _, hctor, ?_⟩⟩
      · exact (conn_fields ids _ "output" dn "%message" false _).1.symm
      · exact (conn_fields ids _ "output" dn "%message" false _).2.2.1.symm
  · simp only [Option.some.injEq, Prod.mk.injEq] at hstep
    obtain ⟨rfl, rfl, rfl, rfl⟩ := hstep
    refine ⟨?_, Or.inr ⟨dn, List.mem_singleton.mpr rfl, rfl⟩⟩
    intro c hc
    rw [List.append_nil] at hc
    obtain ⟨⟨n, hn, he⟩, hdst⟩ := wire_ends hw c hc
    exact ⟨⟨n, List.mem_append_right _ (List.mem_append_left _ hn), he⟩,
      ⟨dn, List.mem_singleton.mpr rfl, hctor, hdst⟩⟩

theorem if_endsP (ids : Ids) (ev : Option Node) :
    StepEndsP ids ev (if_step ids ev) := by
  intro m last st ns cs l2 st2 hstep
  cases hir : create_if_node ids st with
  | mk ifn st1 =>
  cases hw : wire_from ids ev last ifn st1 with
  | mk wc stw =>
  have hctor : isCtor ifn = true := by
    have hp : ifn = (create_if_node ids st).1 := by rw [hir]
    rw [hp]; exact isCtor_if ids st
  cases hop : firstContained comparison_ops (pyStrip (capD m 1)) with
  | some op =>
    simp only [if_step, hir, hw, hop, Option.some.injEq, Prod.mk.injEq] at hstep
    obtain ⟨rfl, rfl, rfl, rfl⟩ := hstep
    refine ⟨?_, Or.inr ⟨ifn, List.mem_cons_self _ _, rfl⟩⟩
    intro c hc
    rcases List.mem_append.mp hc with hcw | hcv
    · obtain ⟨⟨n, hn, he⟩, hdst⟩ := wire_ends hw c hcw
      exact ⟨⟨n, List.mem_append_right _ (List.mem_append_left _ hn), he⟩,
        ⟨ifn, List.mem_cons_self _ _, hctor, hdst⟩⟩
    · rw [List.mem_singleton.mp hcv]
      refine ⟨⟨_, List.mem_append_right _ (List.mem_append_right _
          (List.mem_cons_of_mem _ (List.mem_singleton.mpr rfl))), ?_⟩,
        ⟨ifn, List.mem_cons_self _ _, hctor, ?_⟩⟩
      · exact (conn_fields ids _ "result" ifn "%condition" false _).1.symm
      · exact (conn_fields ids _ "result" ifn "%condition" false _).2.2.1.symm
  | none =>
    simp only [if_step, hir, hw, hop, Option.some.injEq, Prod.mk.injEq] at hstep
    obtain ⟨rfl, rfl, rfl, rfl⟩ := hstep
    refine ⟨?_, Or.inr ⟨ifn, List.mem_singleton.mpr rfl, rfl⟩⟩
    intro c hc
    rw [List.append_nil] at hc
    obtain ⟨⟨n, hn, he⟩, hdst⟩ := wire_ends hw c hc
    exact ⟨⟨n, List.mem_append_right _ (List.mem_append_left _ hn), he⟩,
      ⟨ifn, List.mem_singleton.mpr rfl, hctor, hdst⟩⟩

theorem assign_endsP (ids : Ids) (ev : Option Node) :
    StepEndsP ids ev (assign_step ids ev) := by
  intro m last st ns cs l2 st2 hstep
  cases hsr : create_set_variable_node ids (⟨capD m 1⟩ : String) "System.Object" st with
  | mk svn st1 =>
  cases hw : wire_from ids ev last svn st1 with
  | mk wc stw =>
  have hctor : isCtor svn = true := by
    have hp : svn = (create_set_variable_node ids (⟨capD m 1⟩ : String)
        "System.Object" st).1 := by rw [hsr]
    rw [hp]; exact isCtor_setvar ids _ _ st
  cases hop : (if startsWithQuote (pyStrip (capD m 2)) then none
      else firstContained arithmetic_ops (pyStrip (capD m 2))) with
  | some op =>
    simp only [assign_step, hsr, hw, hop, Option.some.injEq, Prod.mk.injEq] at hstep
    obtain ⟨rfl, rfl, rfl, rfl⟩ := hstep
    refine ⟨?_, Or.inr ⟨svn, List.mem_cons_self _ _, rfl⟩⟩
    intro c hc
    rcases List.mem_append.mp hc with hcw | hcv
    · obtain ⟨⟨n, hn, he⟩, hdst⟩ := wire_ends hw c hcw
      exact ⟨⟨n, List.mem_append_right _ (List.mem_append_left _ hn), he⟩,
        ⟨svn, List.mem_cons_self _ _, hctor, hdst⟩⟩
    · rw [List.mem_singleton.mp hcv]
      refine ⟨⟨_, List.mem_append_right _ (List.mem_append_right _
          (List.mem_cons_of_mem _ (List.mem_singleton.mpr rfl))), ?_⟩,
        ⟨svn, List.mem_cons_self _ _, hctor, ?_⟩⟩
      · exact (conn_fields ids _ "result" svn "%input" false _).1.symm
      · exact (conn_fields ids _ "result" svn "%input" false _).2.2.1.symm
  | none =>
    simp only [assign_step, hsr, hw, hop, Option.some.injEq, Prod.mk.injEq] at hstep
    obtain ⟨rfl, rfl, rfl, rfl⟩ := hstep
    refine ⟨?_, Or.inr ⟨svn, List.mem_singleton.mpr rfl, rfl⟩⟩
    intro c hc
    rw [List.append_nil] at hc
    obtain ⟨⟨n, hn, he⟩, hdst⟩ := wire_ends hw c hc
    exact ⟨⟨n, List.mem_append_right _ (List.mem_append_left _ hn), he⟩,
      ⟨svn, List.mem_singleton.mpr rfl, hctor, hdst⟩⟩

theorem yield_endsP (ids : Ids) (ev : Option Node) :
    StepEndsP ids ev (yield_step ids ev) := by
  intro m last st ns cs l2 st2 hstep
  cases hyr : create_yield_return_node ids st with
  | mk yn st1 =>
  cases hw : wire_from ids ev last yn st1 with
  | mk wc stw =>
  have hctor : isCtor yn = true := by
    have hp : yn = (create_yield_return_node ids st).1 := by rw [hyr]
    rw [hp]; exact isCtor_yieldnode ids st
  simp only [yield_step, hyr, hw] at hstep
  split at hstep
  · split at hstep
    · simp only [Option.some.injEq, Prod.mk.injEq] at hstep
      obtain ⟨rfl, rfl, rfl, rfl⟩ := hstep
      refine ⟨?_, Or.inr ⟨yn, List.mem_cons_self _ _, rfl⟩⟩
      intro c hc
      rcases List.mem_append.mp hc with hcw | hcv
      · obtain ⟨⟨n, hn, he⟩, hdst⟩ := wire_ends hw c hcw
        exact ⟨⟨n, List.mem_append_right _ (List.mem_append_left _ hn), he⟩,
          ⟨yn, List.mem_cons_self _ _, hctor, hdst⟩⟩
      · rw [List.mem_singleton.mp hcv]
        refine ⟨⟨_, List.mem_append_right _ (List.mem_append_right _
            (List.mem_cons_of_mem _ (List.mem_singleton.mpr rfl))), ?_⟩,
          ⟨yn, List.mem_cons_self _ _, hctor, ?_⟩⟩
        · exact (conn_fields ids _ "result" yn "%instruction" false _).1.symm
        · exact (conn_fields ids _ "result" yn "%instruction" false _).2.2.1.symm
    · simp only [Option.some.injEq, Prod.mk.injEq] at hstep
      obtain ⟨rfl, rfl, rfl, rfl⟩ := hstep
      refine ⟨?_, Or.inr ⟨yn, List.mem_singleton.mpr rfl, rfl⟩⟩
      intro c hc
      rw [List.append_nil] at hc
      obtain ⟨⟨n, hn, he⟩, hdst⟩ := wire_ends hw c hc
      exact ⟨⟨n, List.mem_append_right _ (List.mem_append_left _ hn), he⟩,
        ⟨yn, List.mem_singleton.mpr rfl, hctor, hdst⟩⟩
  · simp only [Option.some.injEq, Prod.mk.injEq] at hstep
    obtain ⟨rfl, rfl, rfl, rfl⟩ := hstep
    refine ⟨?_, Or.inr ⟨yn, List.mem_singleton.mpr rfl, rfl⟩⟩
    intro c hc
    rw [List.append_nil] at hc
    obtain ⟨⟨n, hn, he⟩, hdst⟩ := wire_ends hw c hc
    exact ⟨⟨n, List.mem_append_right _ (List.mem_append_left _ hn), he⟩,
      ⟨yn, List.mem_singleton.mpr rfl, hctor, hdst⟩⟩

theorem call_endsP (ids : Ids) (ev : Option Node) (body : List Char) :
    StepEndsP ids ev (call_step ids ev body) := by
  intro m last st ns cs l2 st2 hstep
  simp only [call_step] at hstep
  split at hstep
  · simp only [Option.some.injEq, Prod.mk.injEq] at hstep
    obtain ⟨rfl, rfl, rfl, rfl⟩ := hstep
    exact ⟨fun c hc => absurd hc (List.not_mem_nil c), Or.inl rfl⟩
  · split at hstep
    · simp only [Option.some.injEq, Prod.mk.injEq] at hstep
      obtain ⟨rfl, rfl, rfl, rfl⟩ := hstep
      exact ⟨fun c hc => absurd hc (List.not_mem_nil c), Or.inl rfl⟩
    · simp only [Option.some.injEq, Prod.mk.injEq] at hstep
      obtain ⟨rfl, rfl, rfl, rfl⟩ := hstep
      refine ⟨?_, Or.inr ⟨_, List.mem_singleton.mpr rfl, rfl⟩⟩
      intro c hc
      obtain ⟨⟨n, hn, he⟩, hdst⟩ := wire_ends
        (rfl : wire_from ids ev last _ _ = (_, _)) c hc
      refine ⟨⟨n, List.mem_append_right _ (List.mem_append_left _ hn), he⟩,
        ⟨_, List.mem_singleton.mpr rfl, isCtor_custom ids _ _ _ _ _ _, hdst⟩⟩

theorem endsOK_absorb {ids : Ids} {ev lprev : Option Node} {nk T : List Node}
    {ck : List Connection}
    (hE : EndsOK ids (optToList ev ++ (optToList lprev ++ nk)) nk ck)
    (hev : ∀ n, ev = some n → n ∈ T)
    (hcur : ∀ n, lprev = some n → n ∈ T)
    (hsub : ∀ n ∈ nk, n ∈ T) :
    ∀ c ∈ ck, (∃ n ∈ T, node_id ids n = c.source_unit_id) ∧
      (∃ n ∈ T, isCtor n = true ∧ node_id ids n = c.destination_unit_id) := by
  intro c hc
  obtain ⟨⟨n, hn, he⟩, ⟨n2, hn2, hct, he2⟩⟩ := hE c hc
  refine ⟨⟨n, ?_, he⟩, ⟨n2, hsub n2 hn2, hct, he2⟩⟩
  rcases List.mem_append.mp hn with ha | hb
  · exact hev n (optToList_mem ha)
  · rcases List.mem_append.mp hb with hbl | hbn
    · exact hcur n (optToList_mem hbl)
    · exact hsub n hbn

theorem cursor_step {lprev lk : Option Node} {nk T : List Node}
    (hL : lk = lprev ∨ ∃ n ∈ nk, lk = some n)
    (hcur : ∀ n, lprev = some n → n ∈ T)
    (hsub : ∀ n ∈ nk, n ∈ T) :
    ∀ n, lk = some n → n ∈ T := by
  intro n hn
  rcases hL with rfl | ⟨x, hx, heq⟩
  · exact hcur n hn
  · rw [heq] at hn
    have hxn := Option.some.inj hn
    rw [← hxn]
    exact hsub x hx

set_option maxHeartbeats 2000000 in
/-- Every connection a method's translation emits has both endpoints inside
that method's own emitted node list, and its destination is always one of
the construct nodes. -/
theorem process_method_ends (ids : Ids) (method : MethodRec) (st : GenState)
    {ns : List Node} {cs : List Connection} {st2 : GenState}
    (h : process_method ids method st = some (ns, cs, st2)) :
    ∀ c ∈ cs, (∃ n ∈ ns, node_id ids n = c.source_unit_id) ∧
      (∃ n ∈ ns, isCtor n = true ∧ node_id ids n = c.destination_unit_id) := by
  obtain ⟨evOpt, nodes0, st0, n1, n2, n3, n4, n5, n6, n7, n8, n9,
    c1, c2, c3, c4, c5, c6, c7, c8, c9, l1, l2, l3, l4, l5, l6, l7, l8, l9,
    s1, s2, s3, s4, s5, s6, s7, s8,
    hcase, hf1, hf2, hf3, hf4, hf5, hf6, hf7, hf8, hf9, hns, hcs⟩ :=
    process_method_inv ids method st h
  obtain ⟨hE1, hL1⟩ := foldCat_ends (for_endsP ids evOpt) _ _ _ _ _ _ _ hf1
  obtain ⟨hE2, hL2⟩ := foldCat_ends (while_endsP ids evOpt) _ _ _ _ _ _ _ hf2
  obtain ⟨hE3, hL3⟩ := foldCat_ends (foreach_endsP ids evOpt) _ _ _ _ _ _ _ hf3
  obtain ⟨hE4, hL4⟩ := foldCat_ends (switch_endsP ids evOpt method.body) _ _ _ _ _ _ _ hf4
  obtain ⟨hE5, hL5⟩ := foldCat_ends (debug_endsP ids evOpt) _ _ _ _ _ _ _ hf5
  obtain ⟨hE6, hL6⟩ := foldCat_ends (if_endsP ids evOpt) _ _ _ _ _ _ _ hf6
  obtain ⟨hE7, hL7⟩ := foldCat_ends (assign_endsP ids evOpt) _ _ _ _ _ _ _ hf7
  obtain ⟨hE8, hL8⟩ := foldCat_ends (yield_endsP ids evOpt) _ _ _ _ _ _ _ hf8
  obtain ⟨hE9, hL9⟩ := foldCat_ends (call_endsP ids evOpt method.body) _ _ _ _ _ _ _ hf9
  obtain ⟨X, hX⟩ : ∃ X, X = n1 ++ (n2 ++ (n3 ++ (n4 ++ (n5 ++ (n6 ++ (n7 ++ (n8 ++ n9))))))) :=
    ⟨_, rfl⟩
  rw [← hX] at hns
  have hsubX1 : ∀ n ∈ n1, n ∈ X := by
    intro n hn; rw [hX]
    exact List.mem_append_left _ hn
  have hsubX2 : ∀ n ∈ n2, n ∈ X := by
    intro n hn; rw [hX]
    exact List.mem_append_right _ (List.mem_append_left _ hn)
  have hsubX3 : ∀ n ∈ n3, n ∈ X := by
    intro n hn; rw [hX]
    exact List.mem_append_right _ (List.mem_append_right _ (List.mem_append_left _ hn))
  have hsubX4 : ∀ n ∈ n4, n ∈ X := by
    intro n hn; rw [hX]
    exact List.mem_append_right _ (List.mem_append_right _ (List.mem_append_right _
      (List.mem_append_left _ hn)))
  have hsubX5 : ∀ n ∈ n5, n ∈ X := by
    intro n hn; rw [hX]
    exact List.mem_append_right _ (List.mem_append_right _ (List.mem_append_right _
      (List.mem_append_right _ (List.mem_append_left _ hn))))
  have hsubX6 : ∀ n ∈ n6, n ∈ X := by
    intro n hn; rw [hX]
    exact List.mem_append_right _ (List.mem_append_right _ (List.mem_append_right _
      (List.mem_append_right _ (List.mem_append_right _ (List.mem_append_left _ hn)))))
  have hsubX7 : ∀ n ∈ n7, n ∈ X := by
    intro n hn; rw [hX]
    exact List.mem_append_right _ (List.mem_append_right _ (List.mem_append_right _
      (List.mem_append_right _ (List.mem_append_right _ (List.mem_append_right _
        (List.mem_append_left _ hn))))))
  have hsubX8 : ∀ n ∈ n8, n ∈ X := by
    intro n hn; rw [hX]
    exact List.mem_append_right _ (List.mem_append_right _ (List.mem_append_right _
      (List.mem_append_right _ (List.mem_append_right _ (List.mem_append_right _
        (List.mem_append_right _ (List.mem_append_left _ hn)))))))
  have hsubX9 : ∀ n ∈ n9, n ∈ X := by
    intro n hn; rw [hX]
    exact List.mem_append_right _ (List.mem_append_right _ (List.mem_append_right _
      (List.mem_append_right _ (List.mem_append_right _ (List.mem_append_right _
        (List.mem_append_right _ (List.mem_append_right _ hn)))))))
  have hsub1 : ∀ n ∈ n1, n ∈ nodes0 ++ X := fun n hn =>
    List.mem_append_right _ (hsubX1 n hn)
  have hsub2 : ∀ n ∈ n2, n ∈ nodes0 ++ X := fun n hn =>
    List.mem_append_right _ (hsubX2 n hn)
  have hsub3 : ∀ n ∈ n3, n ∈ nodes0 ++ X := fun n hn =>
    List.mem_append_right _ (hsubX3 n hn)
  have hsub4 : ∀ n ∈ n4, n ∈ nodes0 ++ X := fun n hn =>
    List.mem_append_right _ (hsubX4 n hn)
  have hsub5 : ∀ n ∈ n5, n ∈ nodes0 ++ X := fun n hn =>
    List.mem_append_right _ (hsubX5 n hn)
  have hsub6 : ∀ n ∈ n6, n ∈ nodes0 ++ X := fun n hn =>
    List.mem_append_right _ (hsubX6 n hn)
  have hsub7 : ∀ n ∈ n7, n ∈ nodes0 ++ X := fun n hn =>
    List.mem_append_right _ (hsubX7 n hn)
  have hsub8 : ∀ n ∈ n8, n ∈ nodes0 ++ X := fun n hn =>
    List.mem_append_right _ (hsubX8 n hn)
  have hsub9 : ∀ n ∈ n9, n ∈ nodes0 ++ X := fun n hn =>
    List.mem_append_right _ (hsubX9 n hn)
  have hev0 : ∀ n, evOpt = some n → n ∈ nodes0 ++ X := by
    intro n hn
    rcases hcase with ⟨-, evn, -, heq, hn0⟩ | ⟨-, heq, -, -⟩
    · rw [heq] at hn
      have := Option.some.inj hn
      rw [← this, hn0]
      exact List.mem_append_left _ (List.mem_singleton.mpr rfl)
    · rw [heq] at hn
      exact absurd hn (by simp)
  have hcur1 := cursor_step hL1 hev0 hsub1
  have hcur2 := cursor_step hL2 hcur1 hsub2
  have hcur3 := cursor_step hL3 hcur2 hsub3
  have hcur4 := cursor_step hL4 hcur3 hsub4
  have hcur5 := cursor_step hL5 hcur4 hsub5
  have hcur6 := cursor_step hL6 hcur5 hsub6
  have hcur7 := cursor_step hL7 hcur6 hsub7
  have hcur8 := cursor_step hL8 hcur7 hsub8
  have hC1 := endsOK_absorb hE1 hev0 hev0 hsub1
  have hC2 := endsOK_absorb hE2 hev0 hcur1 hsub2
  have hC3 := endsOK_absorb hE3 hev0 hcur2 hsub3
  have hC4 := endsOK_absorb hE4 hev0 hcur3 hsub4
  have hC5 := endsOK_absorb hE5 hev0 hcur4 hsub5
  have hC6 := endsOK_absorb hE6 hev0 hcur5 hsub6
  have hC7 := endsOK_absorb hE7 hev0 hcur6 hsub7
  have hC8 := endsOK_absorb hE8 hev0 hcur7 hsub8
  have hC9 := endsOK_absorb hE9 hev0 hcur8 hsub9
  have hAll : ∀ c ∈ cs, (∃ n ∈ nodes0 ++ X, node_id ids n = c.source_unit_id) ∧
      (∃ n ∈ nodes0 ++ X, isCtor n = true ∧ node_id ids n = c.destination_unit_id) := by
    rw [hcs]
    intro c hc
    rcases List.mem_append.mp hc with hk | hr
    · exact hC1 c hk
    rcases List.mem_append.mp hr with hk | hr
    · exact hC2 c hk
    rcases List.mem_append.mp hr with hk | hr
    · exact hC3 c hk
    rcases List.mem_append.mp hr with hk | hr
    · exact hC4 c hk
    rcases List.mem_append.mp hr with hk | hr
    · exact hC5 c hk
    rcases List.mem_append.mp hr with hk | hr
    · exact hC6 c hk
    rcases List.mem_append.mp hr with hk | hr
    · exact hC7 c hk
    rcases List.mem_append.mp hr with hk | hr
    · exact hC8 c hk
    exact hC9 c hr
  rcases hcase with ⟨-, evn, -, rfl, rfl⟩ | ⟨-, rfl, rfl, -⟩
  · rw [List.singleton_append] at hns
    obtain ⟨e0, hat, hports, hguid, -, -, -⟩ := attach_comment_cons method.comments evn X
    rw [hat] at hns
    intro c hc
    obtain ⟨⟨n, hn, he⟩, ⟨n2, hn2, hct, he2⟩⟩ := hAll c hc
    constructor
    · rcases List.mem_append.mp hn with hev | hxm
      · have hne : n = evn := List.mem_singleton.mp hev
        refine ⟨e0, by rw [hns]; exact List.mem_cons_self _ _, ?_⟩
        rw [node_id_of_guid ids hguid, ← hne]
        exact he
      · exact ⟨n, by rw [hns]; exact List.mem_cons_of_mem _ hxm, he⟩
    · rcases List.mem_append.mp hn2 with hev | hxm
      · have hne : n2 = evn := List.mem_singleton.mp hev
        refine ⟨e0, by rw [hns]; exact List.mem_cons_self _ _, ?_, ?_⟩
        · rw [isCtor_of_ports hports, ← hne]
          exact hct
        · rw [node_id_of_guid ids hguid, ← hne]
          exact he2
      · exact ⟨n2, by rw [hns]; exact List.mem_cons_of_mem _ hxm, hct, he2⟩
  · rw [attach_comment_none, List.nil_append] at hns
    intro c hc
    obtain ⟨⟨n, hn, he⟩, ⟨n2, hn2, hct, he2⟩⟩ := hAll c hc
    rw [List.nil_append] at hn hn2
    exact ⟨⟨n, by rw [hns]; exact hn, he⟩, ⟨n2, by rw [hns]; exact hn2, hct, he2⟩⟩

end CsConv
